import Mathlib

/-!
Verification development for the cards-backend service: a shallow embedding
of the inventory / marketplace / transfer handlers (TypeScript, DynamoDB) and
proofs about them.

Modelling conventions:
* JS numbers that the handlers treat as integers (costs, versions, pack
  counts, quantities) are `Int`/`Nat`; the RAP rolling average, which is real
  JS floating-point arithmetic over divisions by 10, is modelled over `ℚ`.
* DynamoDB rows live in association lists keyed by the relevant part of the
  partition/sort key (the constant key prefixes such as `USER#`/`LISTING#CARD#`
  are carried by the field the row is stored in, not by string concatenation).
* `record.field || 0` on a possibly-missing numeric attribute is modelled by
  `Option.getD 0`-style lookups; rows written by the handlers always carry a
  numeric `version`, with 0 denoting the parsed default of a missing value.
* Timestamps (`updatedAt`, `timestamp`, `lastUpdated`) are irrelevant to every
  claim and are omitted from the stored rows.
-/

namespace CardsBackend

/-- Replace the value at a key in an association list, or append it
(DynamoDB `Put`/`Update` upsert semantics on a single row). -/
def assocSet {α : Type} [DecidableEq α] {β : Type} :
    List (α × β) → α → β → List (α × β)
  | [], k, v => [(k, v)]
  | e :: es, k, v => if e.1 = k then (k, v) :: es else e :: assocSet es k v

/-- Remove the row at a key from an association list (DynamoDB `Delete`). -/
def assocDel {α : Type} [DecidableEq α] {β : Type}
    (m : List (α × β)) (k : α) : List (α × β) :=
  m.filter fun e => e.1 ≠ k

/-- Look up a key in an association list (DynamoDB `get`). -/
def assocGet {α : Type} [DecidableEq α] {β : Type}
    (m : List (α × β)) (k : α) : Option β :=
  match m with
  | [] => none
  | e :: es => if e.1 = k then some e.2 else assocGet es k

/-- Model of `InventoryCard` from `src/types/inventory.ts`; `level` and `variant` are
kept optional because the handlers defend against their absence with
`?? 1` / `?? 'Normal'`. -/
structure InventoryCard where
  cardId : String
  cardName : String
  level : Option Nat
  variant : Option String
deriving DecidableEq, Repr

/-- A user's pack map `Record<string, number>`: an association list from pack
name to count. -/
abbrev Packs := List (String × Int)

/-- Lookup `packs[name] || 0`. -/
def packsGet (ps : Packs) (name : String) : Int :=
  (assocGet ps name).getD 0

/-- Assignment `packs[name] = v`. -/
def packsSet (ps : Packs) (name : String) (v : Int) : Packs :=
  assocSet ps name v

/-- Deletion `delete packs[name]`. -/
def packsDel (ps : Packs) (name : String) : Packs :=
  assocDel ps name

/-- The stored `USER#id / INVENTORY` row as the handlers write it. -/
structure StoredInventory where
  userId : String
  cards : List InventoryCard
  packs : Packs
  version : Nat
deriving DecidableEq, Repr

/-- Model of `ParsedInventory` from `src/utils/inventory.ts`: the in-memory view of a
possibly-missing inventory row.  The source field `exists` is a Lean keyword
and is rendered `invExists`. -/
structure ParsedInventory where
  userId : String
  cards : List InventoryCard
  packs : Packs
  version : Nat
  invExists : Bool
deriving DecidableEq, Repr

/-- Model of `parseInventoryItem` from `src/utils/inventory.ts` (`item.userId ||
userId` falls back to the caller's id when the stored one is empty). -/
def parseInventoryItem (userId : String) (item : Option StoredInventory) :
    ParsedInventory :=
  match item with
  | none => { userId := userId, cards := [], packs := [], version := 0, invExists := false }
  | some s =>
      { userId := if s.userId = "" then userId else s.userId,
        cards := s.cards, packs := s.packs,
        version := s.version, invExists := true }

/-- Model of `calculateNewRap` from `src/handlers/marketplaceBuy.ts` (also
`src/utils/marketplace.ts`): the exponential rolling average of sale prices. -/
def calculateNewRap (currentRap : Option ℚ) (salePrice : ℚ) : ℚ :=
  match currentRap with
  | none => salePrice
  | some r => r + (salePrice - r) / 10

/-- HTTP-level outcomes of the handlers, by status code. -/
inductive Resp
  | ok200
  | badRequest
  | forbidden
  | notFound
  | conflict
  | gone
  | serverError
deriving DecidableEq, Repr

/-- The card payload of an `addCard` modify operation; `level` and `variant`
are optional in the request and defaulted by the handler. -/
structure CardInput where
  cardId : String
  cardName : String
  level : Option Nat
  variant : Option String
deriving DecidableEq, Repr

/-- Model of `ModifyInventoryAction` from `src/types/inventory.ts`. -/
inductive ModifyAction
  | addCard (card : CardInput)
  | removeCard (cardId : String)
  | setCardLevel (cardId : String) (level : Int)
  | addPack (packName : String) (quantity : Option Int)
  | removePack (packName : String) (quantity : Option Int)
deriving DecidableEq, Repr

/-- JS `operation.quantity || 1`: a missing quantity and a quantity of `0`
are both coerced to `1`; every other integer (negative included) passes
through unchanged. -/
def quantityOrOne : Option Int → Int
  | none => 1
  | some q => if q = 0 then 1 else q

/-- Removal of the first match: `cards.findIndex(c => c.cardId === cardId)` followed by
`splice(index, 1)`, returning the removed card and the remaining list, or
`none` when no card matches. -/
def removeFirstCard : List InventoryCard → String → Option (InventoryCard × List InventoryCard)
  | [], _ => none
  | c :: cs, cid =>
      if c.cardId = cid then some (c, cs)
      else (removeFirstCard cs cid).map fun p => (p.1, c :: p.2)

/-- Update the first card whose `cardId` matches (`findIndex` followed by a
mutation of `cards[index]`), or `none` when no card matches. -/
def updateFirstCard : List InventoryCard → String → (InventoryCard → InventoryCard) →
    Option (List InventoryCard)
  | [], _, _ => none
  | c :: cs, cid, f =>
      if c.cardId = cid then some (f c :: cs)
      else (updateFirstCard cs cid f).map (c :: ·)

/-- One iteration of the operation loop in the `/user/inventory/modify`
handler (`src/handlers/modifyUserInventory.ts`), applied to the in-memory
inventory copy.  In `removePack`, the JS `packs[name] -= quantity` reads the
entry through the guard value `packs[name] || 0`; the model uses that same
value for the subtraction (the source would produce `NaN` on a missing key,
which is reachable only for non-positive quantities on an absent pack). -/
def applyAction (inv : ParsedInventory) : ModifyAction → Except Resp ParsedInventory
  | .addCard c =>
      if c.cardId = "" ∨ c.cardName = "" then .error .badRequest
      else .ok { inv with
        cards := inv.cards ++
          [{ cardId := c.cardId, cardName := c.cardName,
             level := some (c.level.getD 1), variant := some (c.variant.getD "Normal") }] }
  | .removeCard cid =>
      if cid = "" then .error .badRequest
      else
        match removeFirstCard inv.cards cid with
        | none => .error .notFound
        | some p => .ok { inv with cards := p.2 }
  | .setCardLevel cid lvl =>
      if cid = "" then .error .badRequest
      else if lvl < 1 then .error .badRequest
      else
        match updateFirstCard inv.cards cid (fun c => { c with level := some lvl.toNat }) with
        | none => .error .notFound
        | some cs => .ok { inv with cards := cs }
  | .addPack name qty =>
      if name = "" then .error .badRequest
      else .ok { inv with packs := packsSet inv.packs name (packsGet inv.packs name + quantityOrOne qty) }
  | .removePack name qty =>
      if name = "" then .error .badRequest
      else
        let q := quantityOrOne qty
        let current := packsGet inv.packs name
        if current < q then .error .badRequest
        else
          let ps := packsSet inv.packs name (current - q)
          .ok { inv with packs := if current - q = 0 then packsDel ps name else ps }

/-- The whole operation loop of the modify handler, in request order. -/
def applyActions (inv : ParsedInventory) : List ModifyAction → Except Resp ParsedInventory
  | [] => .ok inv
  | op :: ops => do applyActions (← applyAction inv op) ops

/-- Model of `CardListing` from `src/types/inventory.ts` (timestamp omitted). -/
structure CardListing where
  cardId : String
  cardName : String
  cardLevel : Nat
  cardVariant : String
  sellerId : String
  sellerUsername : String
  cost : Int
deriving DecidableEq, Repr

/-- Model of `PackListing` from `src/types/inventory.ts` (timestamp omitted). -/
structure PackListing where
  listingId : String
  packName : String
  sellerId : String
  sellerUsername : String
  cost : Int
deriving DecidableEq, Repr

/-- Sort key of a `USER_LISTINGS#userId` seller-index row:
`CARD#cardId` or `PACK#listingId`. -/
inductive SellerSk
  | card (cardId : String)
  | pack (listingId : String)
deriving DecidableEq, Repr

/-- The item identity used by `ITEM_LISTINGS#…`, `RAP#…` and the RAP registry:
`CARD#name` or `PACK#name`. -/
inductive ItemKey
  | card (name : String)
  | pack (name : String)
deriving DecidableEq, Repr

/-- The DynamoDB table, split by row family.  `sellerRows` and `itemRows` are
presence sets of (partition, sort-key) pairs: their item payloads are copies
of data held elsewhere and are never read back by the mutating handlers. -/
structure MarketState where
  inventories : List (String × StoredInventory)
  cardListings : List (String × CardListing)
  packListings : List (String × PackListing)
  sellerRows : List (String × SellerSk)
  itemRows : List (ItemKey × String)
  raps : List (ItemKey × ℚ)
  registry : List ItemKey
deriving DecidableEq, Repr

/-- A `ConditionExpression` as used by the handlers' transactions:
no condition, `attribute_not_exists(pk)`, `attribute_exists(pk)`, or
`#version = :expectedVersion`. -/
inductive TxCond
  | always
  | notExists
  | mustExist
  | versionEq (v : Nat)
deriving DecidableEq, Repr

/-- One item of a `transactWrite` batch (`src/utils/db.ts`), typed by row
family.  DynamoDB `Put` and `Update` both upsert the addressed row, so both
are rendered as a `write`/`put` of the full row value; the one partial
`Update` in the source (unlist-pack, which sets only `packs`/`version`)
carries the unmodified `cards` value read in the same attempt. -/
inductive TxOp
  | writeInv (userId : String) (cond : TxCond) (inv : StoredInventory)
  | putCardListing (cardId : String) (cond : TxCond) (l : CardListing)
  | delCardListing (cardId : String) (cond : TxCond)
  | putPackListing (listingId : String) (cond : TxCond) (l : PackListing)
  | delPackListing (listingId : String) (cond : TxCond)
  | putSellerRow (userId : String) (sk : SellerSk) (cond : TxCond)
  | delSellerRow (userId : String) (sk : SellerSk)
  | putItemRow (key : ItemKey) (sk : String)
  | writeRap (key : ItemKey) (rap : ℚ)
  | putRegistryRow (key : ItemKey) (cond : TxCond)
deriving DecidableEq, Repr

/-- Evaluate a condition against the current inventory row at the addressed
key (a missing row fails `#version = :expectedVersion`, as in DynamoDB where
the attribute is absent). -/
def condHoldsInv (cur : Option StoredInventory) : TxCond → Bool
  | .always => true
  | .notExists => cur.isNone
  | .mustExist => cur.isSome
  | .versionEq v => match cur with | some s => s.version = v | none => false

/-- Evaluate a presence condition against a non-inventory row (no such row
carries a version condition in the source). -/
def condHoldsRow (present : Bool) : TxCond → Bool
  | .always => true
  | .notExists => !present
  | .mustExist => present
  | .versionEq _ => false

/-- Read `db.get(USER#uid, INVENTORY)`. -/
def invLookup (s : MarketState) (uid : String) : Option StoredInventory :=
  assocGet s.inventories uid

/-- Whether one transaction item's condition holds in a state (DynamoDB
evaluates all conditions against the pre-transaction state). -/
def txCondHolds (s : MarketState) : TxOp → Bool
  | .writeInv uid cond _ => condHoldsInv (invLookup s uid) cond
  | .putCardListing cid cond _ => condHoldsRow (assocGet s.cardListings cid).isSome cond
  | .delCardListing cid cond => condHoldsRow (assocGet s.cardListings cid).isSome cond
  | .putPackListing lid cond _ => condHoldsRow (assocGet s.packListings lid).isSome cond
  | .delPackListing lid cond => condHoldsRow (assocGet s.packListings lid).isSome cond
  | .putSellerRow uid sk cond => condHoldsRow (decide ((uid, sk) ∈ s.sellerRows)) cond
  | .delSellerRow _ _ => true
  | .putItemRow _ _ => true
  | .writeRap _ _ => true
  | .putRegistryRow key cond => condHoldsRow (decide (key ∈ s.registry)) cond

/-- Apply one transaction item to the state, unconditionally. -/
def applyTxOp (s : MarketState) : TxOp → MarketState
  | .writeInv uid _ inv => { s with inventories := assocSet s.inventories uid inv }
  | .putCardListing cid _ l => { s with cardListings := assocSet s.cardListings cid l }
  | .delCardListing cid _ => { s with cardListings := assocDel s.cardListings cid }
  | .putPackListing lid _ l => { s with packListings := assocSet s.packListings lid l }
  | .delPackListing lid _ => { s with packListings := assocDel s.packListings lid }
  | .putSellerRow uid sk _ =>
      { s with sellerRows :=
          if (uid, sk) ∈ s.sellerRows then s.sellerRows else s.sellerRows ++ [(uid, sk)] }
  | .delSellerRow uid sk => { s with sellerRows := s.sellerRows.filter (· ≠ (uid, sk)) }
  | .putItemRow key sk =>
      { s with itemRows :=
          if (key, sk) ∈ s.itemRows then s.itemRows else s.itemRows ++ [(key, sk)] }
  | .writeRap key r => { s with raps := assocSet s.raps key r }
  | .putRegistryRow key _ =>
      { s with registry := if key ∈ s.registry then s.registry else s.registry ++ [key] }

/-- Model of `db.transactWrite`: all-or-nothing — the batch commits exactly when every
item's condition holds against the pre-state, otherwise the store is
untouched (`TransactionCanceledException`). -/
def applyTx (s : MarketState) (ops : List TxOp) : Option MarketState :=
  if ops.all (txCondHolds s) then some (ops.foldl applyTxOp s) else none

/-- The version condition of `db.conditionalPut`: `attribute_not_exists(pk)`
when no expected version is supplied, else `#version = :expectedVersion`. -/
def conditionalPutCond (expectedVersion : Option Nat) : TxCond :=
  match expectedVersion with
  | none => .notExists
  | some v => .versionEq v

/-- The `/user/inventory/modify` handler up to its commit: validation, one
pass of the operation loop, and the `conditionalPut` payload with
`expectedVersion = version === 0 ? undefined : version`. -/
def buildModify (s : MarketState) (userId : String) (ops : List ModifyAction) :
    Except Resp TxOp :=
  if userId = "" ∨ ops = [] then .error .badRequest
  else
    let inv := parseInventoryItem userId (invLookup s userId)
    match applyActions inv ops with
    | .error e => .error e
    | .ok inv2 => .ok (.writeInv userId
        (conditionalPutCond (if inv.version = 0 then none else some inv.version))
        { userId := userId, cards := inv2.cards, packs := inv2.packs,
          version := inv.version + 1 })

/-- One sequential (uncontended) execution of the modify handler: a failed
condition is what the retry loop converts into a Conflict response. -/
def runModify (s : MarketState) (userId : String) (ops : List ModifyAction) :
    Resp × MarketState :=
  match buildModify s userId ops with
  | .error e => (e, s)
  | .ok op =>
      match applyTx s [op] with
      | some s2 => (.ok200, s2)
      | none => (.conflict, s)

/-- Body of `POST /marketplace/list` with `type: card`. -/
structure ListCardRequest where
  userId : String
  username : String
  cardId : String
  cost : Int
deriving DecidableEq, Repr

/-- Body of `POST /marketplace/list` with `type: pack`. -/
structure ListPackRequest where
  userId : String
  username : String
  packName : String
  cost : Int
deriving DecidableEq, Repr

/-- Count `db.query(USER_LISTINGS#userId).items.length`. -/
def sellerRowCount (s : MarketState) (uid : String) : Nat :=
  (s.sellerRows.filter fun r => r.1 = uid).length

/-- Constant `MAX_LISTINGS` from `src/handlers/marketplaceList.ts`. -/
def MAX_LISTINGS : Nat := 256

/-- The card branch of the list handler (`src/handlers/marketplaceList.ts`):
validation, reads, and the four-item transaction — create the listing row
(not-exists), the seller-index row (not-exists), the item-index row, and the
version-conditioned inventory update with the card spliced out. -/
def buildListCard (s : MarketState) (r : ListCardRequest) :
    Except Resp (CardListing × List TxOp) :=
  if r.userId = "" ∨ r.username = "" then .error .badRequest
  else if r.cost < 1 then .error .badRequest
  else if r.cardId = "" then .error .badRequest
  else
    match invLookup s r.userId with
    | none => .error .notFound
    | some stored =>
      if MAX_LISTINGS ≤ sellerRowCount s r.userId then .error .badRequest
      else
        let inv := parseInventoryItem r.userId (some stored)
        match removeFirstCard inv.cards r.cardId with
        | none => .error .notFound
        | some (card, rest) =>
          if (assocGet s.cardListings r.cardId).isSome then .error .conflict
          else
            let listing : CardListing :=
              { cardId := r.cardId, cardName := card.cardName,
                cardLevel := card.level.getD 1, cardVariant := card.variant.getD "Normal",
                sellerId := r.userId, sellerUsername := r.username, cost := r.cost }
            .ok (listing,
              [ .putCardListing r.cardId .notExists listing,
                .putSellerRow r.userId (.card r.cardId) .notExists,
                .putItemRow (.card card.cardName) r.cardId,
                .writeInv r.userId (.versionEq inv.version)
                  { userId := stored.userId, cards := rest, packs := inv.packs,
                    version := inv.version + 1 } ])

/-- The pack branch of the list handler; `freshId` is the generated
`randomUUID()` listing id. -/
def buildListPack (s : MarketState) (r : ListPackRequest) (freshId : String) :
    Except Resp (PackListing × List TxOp) :=
  if r.userId = "" ∨ r.username = "" then .error .badRequest
  else if r.cost < 1 then .error .badRequest
  else if r.packName = "" then .error .badRequest
  else
    match invLookup s r.userId with
    | none => .error .notFound
    | some stored =>
      if MAX_LISTINGS ≤ sellerRowCount s r.userId then .error .badRequest
      else
        let inv := parseInventoryItem r.userId (some stored)
        if packsGet inv.packs r.packName < 1 then .error .notFound
        else
          let newCount := packsGet inv.packs r.packName - 1
          let ps := packsSet inv.packs r.packName newCount
          let updated := if newCount = 0 then packsDel ps r.packName else ps
          let listing : PackListing :=
            { listingId := freshId, packName := r.packName,
              sellerId := r.userId, sellerUsername := r.username, cost := r.cost }
          .ok (listing,
            [ .putPackListing freshId .notExists listing,
              .putSellerRow r.userId (.pack freshId) .notExists,
              .putItemRow (.pack r.packName) freshId,
              .writeInv r.userId (.versionEq inv.version)
                { userId := stored.userId, cards := inv.cards, packs := updated,
                  version := inv.version + 1 } ])

/-- One sequential execution of the list handler, card branch. -/
def runListCard (s : MarketState) (r : ListCardRequest) : Resp × MarketState :=
  match buildListCard s r with
  | .error e => (e, s)
  | .ok (_, ops) =>
      match applyTx s ops with
      | some s2 => (.ok200, s2)
      | none => (.conflict, s)

/-- One sequential execution of the list handler, pack branch. -/
def runListPack (s : MarketState) (r : ListPackRequest) (freshId : String) :
    Resp × MarketState :=
  match buildListPack s r freshId with
  | .error e => (e, s)
  | .ok (_, ops) =>
      match applyTx s ops with
      | some s2 => (.ok200, s2)
      | none => (.conflict, s)

/-- The card branch of the unlist handler
(`src/handlers/marketplaceUnlist.ts`): ownership check, then a two-item
transaction deleting the listing row (must-exist) and the seller-index row. -/
def buildUnlistCard (s : MarketState) (userId cardId : String) :
    Except Resp (List TxOp) :=
  if userId = "" ∨ cardId = "" then .error .badRequest
  else
    match assocGet s.cardListings cardId with
    | none => .error .notFound
    | some l =>
      if l.sellerId ≠ userId then .error .forbidden
      else .ok [ .delCardListing cardId .mustExist,
                 .delSellerRow userId (.card cardId) ]

/-- The pack branch of the unlist handler: deletes the listing and
seller-index rows and credits the pack back to the seller's inventory
(version-conditioned update, or a not-exists create when the inventory row is
absent). -/
def buildUnlistPack (s : MarketState) (userId listingId : String) :
    Except Resp (List TxOp) :=
  if userId = "" ∨ listingId = "" then .error .badRequest
  else
    match assocGet s.packListings listingId with
    | none => .error .notFound
    | some l =>
      if l.sellerId ≠ userId then .error .forbidden
      else
        let base : List TxOp :=
          [ .delPackListing listingId .mustExist,
            .delSellerRow userId (.pack listingId) ]
        match invLookup s userId with
        | some stored =>
            .ok (base ++
              [ .writeInv userId (.versionEq stored.version)
                  { userId := stored.userId, cards := stored.cards,
                    packs := packsSet stored.packs l.packName
                      (packsGet stored.packs l.packName + 1),
                    version := stored.version + 1 } ])
        | none =>
            .ok (base ++
              [ .writeInv userId .notExists
                  { userId := userId, cards := [],
                    packs := [(l.packName, 1)], version := 1 } ])

/-- One sequential execution of the unlist handler, card branch. -/
def runUnlistCard (s : MarketState) (userId cardId : String) : Resp × MarketState :=
  match buildUnlistCard s userId cardId with
  | .error e => (e, s)
  | .ok ops =>
      match applyTx s ops with
      | some s2 => (.ok200, s2)
      | none => (.conflict, s)

/-- One sequential execution of the unlist handler, pack branch. -/
def runUnlistPack (s : MarketState) (userId listingId : String) : Resp × MarketState :=
  match buildUnlistPack s userId listingId with
  | .error e => (e, s)
  | .ok ops =>
      match applyTx s ops with
      | some s2 => (.ok200, s2)
      | none => (.conflict, s)

/-- Body of `POST /marketplace/buy` with `type: card`. -/
structure BuyCardRequest where
  buyerId : String
  cardId : String
  expectedCost : Int
deriving DecidableEq, Repr

/-- Body of `POST /marketplace/buy` with `type: pack`. -/
structure BuyPackRequest where
  buyerId : String
  listingId : String
  expectedCost : Int
deriving DecidableEq, Repr

/-- Model of `cleanupCardListing` from `src/handlers/marketplaceBuy.ts`: the
best-effort orphan cleanup transaction (no conditions). -/
def cleanupCardListingOps (l : CardListing) : List TxOp :=
  [ .delCardListing l.cardId .always,
    .delSellerRow l.sellerId (.card l.cardId) ]

/-- The control-flow outcomes of `handleCardPurchase` before its store
writes: an early error response, the orphan-cleanup path, or the purchase
transaction. -/
inductive BuyPlan
  | fail (e : Resp)
  | orphan (l : CardListing)
  | commit (ops : List TxOp)
deriving DecidableEq, Repr

/-- The buyer-side inventory write shared by both purchase flows: a
version-conditioned update for an existing buyer row, or a not-exists create
at version 1. -/
def buyerWrite (buyerId : String) (buyerItem : Option StoredInventory)
    (cards : List InventoryCard) (packs : Packs) : TxOp :=
  match buyerItem with
  | some b =>
      .writeInv buyerId (.versionEq b.version)
        { userId := b.userId, cards := cards, packs := packs, version := b.version + 1 }
  | none =>
      .writeInv buyerId .notExists
        { userId := buyerId, cards := cards, packs := packs, version := 1 }

/-- The RAP tail of both purchase flows: update the record, or create it and
its registry row (not-exists) on a first sale. -/
def rapWrites (key : ItemKey) (currentRap : Option ℚ) (newRap : ℚ) : List TxOp :=
  match currentRap with
  | some _ => [ .writeRap key newRap ]
  | none => [ .writeRap key newRap, .putRegistryRow key .notExists ]

/-- Model of `handleCardPurchase` (`src/handlers/marketplaceBuy.ts`) up to its store
writes: price check (Conflict), self-purchase check (BadRequest), seller
inventory load, the orphan path when the card has left the seller's
inventory, otherwise the atomic transaction moving the card to the buyer and
updating the RAP record. -/
def planBuyCard (s : MarketState) (r : BuyCardRequest) : BuyPlan :=
  if r.buyerId = "" ∨ r.cardId = "" then .fail .badRequest
  else
    match assocGet s.cardListings r.cardId with
    | none => .fail .notFound
    | some l =>
      if l.cost ≠ r.expectedCost then .fail .conflict
      else if l.sellerId = r.buyerId then .fail .badRequest
      else
        match invLookup s l.sellerId with
        | none => .fail .notFound
        | some sellerInv =>
          match removeFirstCard sellerInv.cards r.cardId with
          | none => .orphan l
          | some (card, rest) =>
            let buyerItem := invLookup s r.buyerId
            let buyerCards := (buyerItem.map (·.cards)).getD []
            let buyerPacks := (buyerItem.map (·.packs)).getD []
            let currentRap := assocGet s.raps (.card l.cardName)
            .commit
              ([ .delCardListing r.cardId .mustExist,
                 .delSellerRow l.sellerId (.card r.cardId),
                 .writeInv l.sellerId (.versionEq sellerInv.version)
                   { userId := sellerInv.userId, cards := rest, packs := sellerInv.packs,
                     version := sellerInv.version + 1 },
                 buyerWrite r.buyerId buyerItem (buyerCards ++ [card]) buyerPacks ]
               ++ rapWrites (.card l.cardName) currentRap
                    (calculateNewRap currentRap (l.cost : ℚ)))

/-- One sequential execution of the card purchase: the orphan path applies
the best-effort cleanup and answers Gone; the commit path runs the atomic
transaction. -/
def runBuyCard (s : MarketState) (r : BuyCardRequest) : Resp × MarketState :=
  match planBuyCard s r with
  | .fail e => (e, s)
  | .orphan l => (.gone, (cleanupCardListingOps l).foldl applyTxOp s)
  | .commit ops =>
      match applyTx s ops with
      | some s2 => (.ok200, s2)
      | none => (.conflict, s)

/-- Model of `handlePackPurchase` up to its store writes: the self-purchase check
(BadRequest) comes before the price check (Conflict), then the atomic
transaction crediting the pack to the buyer (the seller's inventory was
already debited at listing time) and updating the RAP record. -/
def planBuyPack (s : MarketState) (r : BuyPackRequest) : Except Resp (List TxOp) :=
  if r.buyerId = "" ∨ r.listingId = "" then .error .badRequest
  else
    match assocGet s.packListings r.listingId with
    | none => .error .notFound
    | some l =>
      if l.sellerId = r.buyerId then .error .badRequest
      else if l.cost ≠ r.expectedCost then .error .conflict
      else
        let buyerItem := invLookup s r.buyerId
        let buyerCards := (buyerItem.map (·.cards)).getD []
        let buyerPacks := (buyerItem.map (·.packs)).getD []
        let currentRap := assocGet s.raps (.pack l.packName)
        .ok
          ([ .delPackListing r.listingId .mustExist,
             .delSellerRow l.sellerId (.pack r.listingId),
             buyerWrite r.buyerId buyerItem buyerCards
               (packsSet buyerPacks l.packName (packsGet buyerPacks l.packName + 1)) ]
           ++ rapWrites (.pack l.packName) currentRap
                (calculateNewRap currentRap (l.cost : ℚ)))

/-- One sequential execution of the pack purchase. -/
def runBuyPack (s : MarketState) (r : BuyPackRequest) : Resp × MarketState :=
  match planBuyPack s r with
  | .error e => (e, s)
  | .ok ops =>
      match applyTx s ops with
      | some s2 => (.ok200, s2)
      | none => (.conflict, s)

/-- One transfer leg of `POST /transfer`
(`src/handlers/transferBetweenUsers.ts`): `cards` is the list of card ids,
`packs` the list of `{packName, quantity}` pairs. -/
structure Transfer where
  fromUserId : String
  toUserId : String
  cards : List String
  packs : List (String × Int)
deriving DecidableEq, Repr

/-- The per-leg request validation of the transfer handler: at least one leg,
ids present and distinct, and at least one asset per leg. -/
def validTransfers (ts : List Transfer) : Bool :=
  !ts.isEmpty && ts.all fun t =>
    t.fromUserId != "" && t.toUserId != "" && t.fromUserId != t.toUserId &&
    (!t.cards.isEmpty || !t.packs.isEmpty)

/-- Deduplication `[...new Set(xs)]`, keeping first occurrences. -/
def firstDedup : List String → List String
  | [] => []
  | x :: xs => x :: firstDedup (xs.filter fun y => y != x)
termination_by l => l.length
decreasing_by
  simp only [List.length_cons]
  exact Nat.lt_succ_of_le (List.length_filter_le _ _)

/-- The in-memory map of loaded inventories, keyed by user id. -/
abbrev InvMap := List (String × ParsedInventory)

/-- Mutate the inventory object held in the map at one user id. -/
def invMapUpdate (m : InvMap) (uid : String) (f : ParsedInventory → ParsedInventory) :
    InvMap :=
  m.map fun e => if e.1 = uid then (e.1, f e.2) else e

/-- The card loop of one transfer leg: each card id is spliced out of the
source inventory (BadRequest when absent) and pushed onto the destination,
against the current in-memory map. -/
def moveCards (m : InvMap) (fromId toId : String) : List String → Except Resp InvMap
  | [] => .ok m
  | cid :: cids =>
      match assocGet m fromId with
      | none => .error .serverError
      | some f =>
        match removeFirstCard f.cards cid with
        | none => .error .badRequest
        | some (card, rest) =>
            moveCards
              (invMapUpdate (invMapUpdate m fromId fun x => { x with cards := rest })
                toId fun x => { x with cards := x.cards ++ [card] })
              fromId toId cids

/-- The pack loop of one transfer leg: BadRequest on insufficient quantity,
otherwise decrement the source count (deleting the entry at zero) and
increment the destination count. -/
def movePacks (m : InvMap) (fromId toId : String) :
    List (String × Int) → Except Resp InvMap
  | [] => .ok m
  | (pname, qty) :: rest =>
      match assocGet m fromId with
      | none => .error .serverError
      | some f =>
        if packsGet f.packs pname < qty then .error .badRequest
        else
          let newCount := packsGet f.packs pname - qty
          let ps := packsSet f.packs pname newCount
          let debited := if newCount = 0 then packsDel ps pname else ps
          movePacks
            (invMapUpdate (invMapUpdate m fromId fun x => { x with packs := debited })
              toId fun x =>
                { x with packs := packsSet x.packs pname (packsGet x.packs pname + qty) })
            fromId toId rest

/-- One transfer leg: both parties must be in the loaded map, the source
inventory must exist in the store (NotFound), then cards move before packs. -/
def applyLeg (m : InvMap) (t : Transfer) : Except Resp InvMap :=
  match assocGet m t.fromUserId, assocGet m t.toUserId with
  | some fromInv, some _ =>
      if fromInv.invExists = false then .error .notFound
      else
        match moveCards m t.fromUserId t.toUserId t.cards with
        | .error e => .error e
        | .ok m2 => movePacks m2 t.fromUserId t.toUserId t.packs
  | _, _ => .error .serverError

/-- The legs applied sequentially, so later legs see earlier effects. -/
def runTransferLegs (m : InvMap) : List Transfer → Except Resp InvMap
  | [] => .ok m
  | t :: ts =>
      match applyLeg m t with
      | .error e => .error e
      | .ok m2 => runTransferLegs m2 ts

/-- The commit entry for one loaded inventory: `inventory.version++`, then an
update conditioned on `version - 1` for existing rows or a not-exists create
otherwise.  The update does not SET `userId`; the untouched attribute is
rendered by the parsed value, which differs from the stored attribute only
when that attribute is empty. -/
def transferWriteOf (uid : String) (inv : ParsedInventory) : TxOp :=
  if inv.invExists then
    .writeInv uid (.versionEq inv.version)
      { userId := inv.userId, cards := inv.cards, packs := inv.packs,
        version := inv.version + 1 }
  else
    .writeInv uid .notExists
      { userId := uid, cards := inv.cards, packs := inv.packs,
        version := inv.version + 1 }

/-- The transfer handler's business phase: validation, one load of every
distinct user's inventory, sequential leg application, and the single atomic
transaction committing every touched inventory. -/
def buildTransfer (s : MarketState) (ts : List Transfer) : Except Resp (List TxOp) :=
  if !validTransfers ts then .error .badRequest
  else
    let ids := firstDedup ((ts.map fun t => [t.fromUserId, t.toUserId]).flatten)
    let m0 : InvMap := ids.map fun uid => (uid, parseInventoryItem uid (invLookup s uid))
    match runTransferLegs m0 ts with
    | .error e => .error e
    | .ok m => .ok (m.map fun e => transferWriteOf e.1 e.2)

/-- One sequential execution of the transfer business phase. -/
def runTransfer (s : MarketState) (ts : List Transfer) : Resp × MarketState :=
  match buildTransfer s ts with
  | .error e => (e, s)
  | .ok ops =>
      match applyTx s ops with
      | some s2 => (.ok200, s2)
      | none => (.conflict, s)

/-- The lifecycle states of an `IDEMPOTENCY#key / TRANSFER` row. -/
inductive IdemStatus
  | processing
  | completed
deriving DecidableEq, Repr

/-- The idempotency row.  `statusCode`/`response` are set by the completion
update; `condAttr` is the stray `condition` field of the initial put, which
`db.put` stores as a plain data attribute. -/
structure IdemRecord where
  status : IdemStatus
  statusCode : Option Nat
  response : Option String
  condAttr : Option String
deriving DecidableEq, Repr

/-- Model of `db.put` from `src/utils/db.ts`: it issues a `PutCommand` with only
`TableName` and `Item` — no `ConditionExpression` is ever attached, so the
write unconditionally replaces whatever row is present and can never raise
`ConditionalCheckFailedException`. -/
def dbPut (cur : Option IdemRecord) (item : IdemRecord) : Option IdemRecord :=
  match cur with
  | _ => some item

/-- The marker row the transfer handler writes before doing business logic.
Its `condition: 'attribute_not_exists(pk)'` entry travels inside the item. -/
def processingMarker : IdemRecord :=
  { status := .processing, statusCode := none, response := none,
    condAttr := some "attribute_not_exists(pk)" }

/-- What the transfer handler does before any business logic, split at store
granularity: the decision taken from the observed `db.get` result. -/
inductive EntryOutcome
  | respond (statusCode : Nat) (body : String)
  | execute
deriving DecidableEq, Repr

/-- The decision the transfer handler takes from the `db.get` of the
idempotency row: Conflict on a `processing` marker, verbatim replay of the
stored response on a `completed` one, and otherwise fall through to the
marker write and the business logic.  The request body plays no part: it is
parsed only after this decision. -/
def entryDecision (observed : Option IdemRecord) : EntryOutcome :=
  match observed with
  | some r =>
      match r.status with
      | .processing => .respond 409 "This request is already being processed"
      | .completed => .respond (r.statusCode.getD 0) (r.response.getD "")
  | none => .execute

/-- The store write the entry phase performs given what it observed: a
request that decided to execute writes the `processing` marker through
`db.put` (unconditionally, see `dbPut`); the others write nothing. -/
def entryWrites (observed cur : Option IdemRecord) : Option IdemRecord :=
  match observed with
  | none => dbPut cur processingMarker
  | some _ => cur

/-- The sequential (uncontended) entry phase of the transfer handler.  The
raw request body is in hand (`event.body`) but is parsed only after the
decision, so the outcome cannot depend on it. -/
def transferEntryPhase (cur : Option IdemRecord) (body : String) :
    EntryOutcome × Option IdemRecord :=
  (entryDecision cur, entryWrites cur cur)

/-- Two concurrent first requests with the same idempotency key, interleaved
so that both `db.get`s run before either `db.put`: each request decides from
its own observation, then both writes land. -/
def raceFirstRequests (cur : Option IdemRecord) :
    EntryOutcome × EntryOutcome × Option IdemRecord :=
  let observed1 := cur
  let observed2 := cur
  let cur1 := entryWrites observed1 cur
  let cur2 := entryWrites observed2 cur1
  (entryDecision observed1, entryDecision observed2, cur2)

/-- The RAP record as the history backfill sees it, with calendar dates as
day indices: `lastUpdatedDay` is `getDateString(new Date(rec.lastUpdated))`
and `lastSnapshotDate` is the optional snapshot cursor. -/
structure RapSnapState where
  rap : ℚ
  lastUpdatedDay : Nat
  lastSnapshotDate : Option Nat
deriving DecidableEq, Repr

/-- The `HISTORY#date` rows of one item: (date, rap) pairs. -/
abbrev HistoryRows := List (Nat × ℚ)

/-- Model of `getDaysBetween` from `src/handlers/marketplaceGetHistory.ts`: the
calendar dates strictly after `startDate` through `endDate` inclusive (the
source advances a `Date` cursor one day at a time; days are indices here). -/
def getDaysBetween (startDate endDate : Nat) : List Nat :=
  (List.range (endDate - startDate)).map fun i => startDate + 1 + i

/-- The per-item backfill step of `fetchMarketplaceHistory`: when the item
was not snapshotted today, write one `HISTORY#date` row carrying the current
RAP for each missing date not already present, then set `lastSnapshotDate`
to today.  (The source checks presence against a history list it also pushes
to, but the candidate dates are pairwise distinct, so checking against the
original list is equivalent.)  Returns the newly written rows and the
updated record. -/
def backfillItem (rec : RapSnapState) (history : HistoryRows) (today : Nat) :
    HistoryRows × RapSnapState :=
  if rec.lastSnapshotDate = some today then ([], rec)
  else
    let startDate := rec.lastSnapshotDate.getD rec.lastUpdatedDay
    let missing := getDaysBetween startDate today
    let newRows := (missing.filter fun d => !(history.any fun h => h.1 = d)).map
      fun d => (d, rec.rap)
    (newRows, { rec with lastSnapshotDate := some today })

/-- The version a mutation reads for a user at the start of its attempt:
the stored `version` attribute, `|| 0` when the row (or attribute) is
absent. -/
def readVersion (s : MarketState) (uid : String) : Nat :=
  ((invLookup s uid).map (·.version)).getD 0

/-- The version-threading contract of one committed inventory write (claim
C2): the stored version is the read version plus one, and the write is
conditioned on the read version — through a not-exists condition exactly
when the read version was 0. -/
def invWriteBumps (readV : Nat) (cond : TxCond) (inv : StoredInventory) : Prop :=
  inv.version = readV + 1 ∧
  (cond = .versionEq readV ∨ (cond = .notExists ∧ readV = 0))

/-- Invariant of the transfer handler's in-memory map: leg application only
moves cards and packs, so every entry keeps the version and existence flag
observed at load time. -/
def mapVersionsOk (s : MarketState) (m : InvMap) : Prop :=
  ∀ e ∈ m, e.2.version = readVersion s e.1 ∧
    e.2.invExists = (invLookup s e.1).isSome

/-- How many copies of a card id a card list holds. -/
def cardCount (cards : List InventoryCard) (cid : String) : Nat :=
  (cards.filter fun c => c.cardId == cid).length

/-- The number of places card `cid` occupies in a state: copies across all
user inventories, plus one for an active card listing. -/
def cardPlaces (s : MarketState) (cid : String) : Nat :=
  (s.inventories.map fun e => cardCount e.2.cards cid).sum +
    (if (assocGet s.cardListings cid).isSome then 1 else 0)

/-- The empty table. -/
def emptyMarket : MarketState :=
  { inventories := [], cardListings := [], packListings := [],
    sellerRows := [], itemRows := [], raps := [], registry := [] }

/-- Concrete scenario: user alice receives card x1 through the modify
endpoint. -/
def demoStep1 : Resp × MarketState :=
  runModify emptyMarket "alice"
    [.addCard { cardId := "x1", cardName := "Dragon", level := none, variant := none }]

/-- Next step: alice lists card x1 on the marketplace for 10. -/
def demoStep2 : Resp × MarketState :=
  runListCard demoStep1.2
    { userId := "alice", username := "Alice", cardId := "x1", cost := 10 }

/-- Final step: alice unlists card x1 again. -/
def demoStep3 : Resp × MarketState :=
  runUnlistCard demoStep2.2 "alice" "x1"

/-- Concrete post-list state for the unlist scenario of claim C3: alice's
card x1 sits in its listing (not in her inventory), with both index rows
present. -/
def unlistDemoState : MarketState :=
  { inventories :=
      [("alice", { userId := "alice", cards := [], packs := [], version := 2 })],
    cardListings :=
      [("x1", { cardId := "x1", cardName := "Dragon", cardLevel := 1,
                cardVariant := "Normal", sellerId := "alice",
                sellerUsername := "Alice", cost := 10 })],
    packListings := [],
    sellerRows := [("alice", .card "x1")],
    itemRows := [(.card "Dragon", "x1")],
    raps := [], registry := [] }

section AssocLemmas

variable {α β : Type} [DecidableEq α]

theorem assocGet_assocSet_self (m : List (α × β)) (k : α) (v : β) :
    assocGet (assocSet m k v) k = some v := by
  induction m with
  | nil => simp [assocSet, assocGet]
  | cons e es ih =>
      by_cases h : e.1 = k
      · simp [assocSet, h, assocGet]
      · simp [assocSet, h, assocGet, ih]

theorem assocGet_assocSet_ne (m : List (α × β)) (k k2 : α) (v : β) (h : k2 ≠ k) :
    assocGet (assocSet m k v) k2 = assocGet m k2 := by
  have hk : ¬k = k2 := fun hh => h hh.symm
  induction m with
  | nil => simp [assocSet, assocGet, hk]
  | cons e es ih =>
      by_cases he : e.1 = k
      · have he2 : ¬e.1 = k2 := by rw [he]; exact hk
        simp [assocSet, he, assocGet, hk, he2]
      · simp [assocSet, he, assocGet, ih]

theorem assocGet_assocDel_self (m : List (α × β)) (k : α) :
    assocGet (assocDel m k) k = none := by
  induction m with
  | nil => simp [assocDel, assocGet]
  | cons e es ih =>
      by_cases h : e.1 = k
      · simpa [assocDel, List.filter_cons, h] using ih
      · simpa [assocDel, List.filter_cons, h, assocGet] using ih

theorem assocGet_assocDel_ne (m : List (α × β)) (k k2 : α) (h : k2 ≠ k) :
    assocGet (assocDel m k) k2 = assocGet m k2 := by
  induction m with
  | nil => rfl
  | cons e es ih =>
      by_cases he : e.1 = k
      · have he2 : ¬e.1 = k2 := by rw [he]; exact fun hh => h hh.symm
        rw [show assocDel (e :: es) k = assocDel es k by
          simp [assocDel, List.filter_cons, he]]
        rw [ih]
        simp [assocGet, he2]
      · rw [show assocDel (e :: es) k = e :: assocDel es k by
          simp [assocDel, List.filter_cons, he]]
        simp [assocGet, ih]

end AssocLemmas

theorem packsGet_packsSet_self (ps : Packs) (n : String) (v : Int) :
    packsGet (packsSet ps n v) n = v := by
  simp [packsGet, packsSet, assocGet_assocSet_self]

theorem packsGet_packsSet_ne (ps : Packs) (n n2 : String) (v : Int) (h : n2 ≠ n) :
    packsGet (packsSet ps n v) n2 = packsGet ps n2 := by
  simp [packsGet, packsSet, assocGet_assocSet_ne _ _ _ _ h]

/-- C8: the new RAP is the sale price on a first sale and otherwise moves one
tenth of the way from the prior RAP towards the sale price; in particular a
first sale at 100 gives exactly 100 and a sale at 200 against a prior RAP of
100 gives exactly 110. -/
theorem rap_rolling_average_formula :
    (∀ p : ℚ, calculateNewRap none p = p) ∧
    (∀ r p : ℚ, calculateNewRap (some r) p = r + (p - r) / 10) ∧
    calculateNewRap none 100 = 100 ∧
    calculateNewRap (some 100) 200 = 110 := by
  refine ⟨fun p => rfl, fun r p => rfl, rfl, ?_⟩
  norm_num [calculateNewRap]

/-- C6: a transfer request whose idempotency record is `completed` gets the
stored status code and body replayed verbatim, whatever the request body is
(business logic never runs: the outcome is `respond`, not `execute`), and a
`processing` record yields Conflict (409). -/
theorem transfer_idempotent_replay (r : IdemRecord) (code : Nat) (stored : String)
    (hst : r.status = .completed) (hc : r.statusCode = some code)
    (hr : r.response = some stored) :
    (∀ body : String, transferEntryPhase (some r) body = (.respond code stored, some r)) ∧
    (∀ body1 body2 : String,
       transferEntryPhase (some r) body1 = transferEntryPhase (some r) body2) ∧
    (∀ (p : IdemRecord) (body : String), p.status = .processing →
       transferEntryPhase (some p) body =
         (.respond 409 "This request is already being processed", some p)) := by
  refine ⟨fun body => ?_, fun body1 body2 => rfl, fun p body hp => ?_⟩
  · simp [transferEntryPhase, entryDecision, entryWrites, hst, hc, hr]
  · simp [transferEntryPhase, entryDecision, entryWrites, hp]

/-- C6 witness: replay of a concrete completed record against a request body
that differs from the original. -/
theorem transfer_idempotent_replay_witness :
    transferEntryPhase
      (some { status := .completed, statusCode := some 200,
              response := some "originalBody", condAttr := none })
      "aDifferentBody" =
    (.respond 200 "originalBody",
     some { status := .completed, statusCode := some 200,
            response := some "originalBody", condAttr := none }) :=
  (transfer_idempotent_replay
    { status := .completed, statusCode := some 200,
      response := some "originalBody", condAttr := none }
    200 "originalBody" rfl rfl rfl).1 "aDifferentBody"

/-- C10: the modify endpoint coerces a pack quantity of 0 to 1 (`quantity ||
1`) but lets negative quantities through: on an inventory whose pack `p` has
count `c > 0`, `removePack` with a negative quantity `q` succeeds and the
committed row stores count `c - q > c` (with the version bumped as usual);
`addPack` gets the same `|| 1` coercion. -/
theorem modify_pack_quantity_unvalidated
    (s : MarketState) (uid p : String) (q : Int) (stored : StoredInventory)
    (huid : uid ≠ "") (hp : p ≠ "") (hq : q < 0)
    (hlook : invLookup s uid = some stored) (hver : stored.version ≠ 0)
    (hc : 0 < packsGet stored.packs p) :
    (∃ s2 st2, runModify s uid [.removePack p (some q)] = (.ok200, s2) ∧
       invLookup s2 uid = some st2 ∧
       packsGet st2.packs p = packsGet stored.packs p - q ∧
       packsGet stored.packs p < packsGet st2.packs p ∧
       st2.version = stored.version + 1) ∧
    quantityOrOne (some 0) = 1 ∧ quantityOrOne none = 1 ∧
    (∀ (inv : ParsedInventory) (n : String),
       applyAction inv (.removePack n (some 0)) = applyAction inv (.removePack n (some 1))) ∧
    (∀ (inv : ParsedInventory) (n : String),
       applyAction inv (.addPack n (some 0)) = applyAction inv (.addPack n (some 1))) := by
  have hq0 : q ≠ 0 := ne_of_lt hq
  have hqone : quantityOrOne (some q) = q := by simp [quantityOrOne, hq0]
  have hnotlt : ¬packsGet stored.packs p < q := by omega
  have hne0 : ¬packsGet stored.packs p - q = 0 := by omega
  refine ⟨?_, rfl, rfl, fun inv n => rfl, fun inv n => rfl⟩
  have hact : applyActions (parseInventoryItem uid (some stored))
      [ModifyAction.removePack p (some q)] =
      .ok { parseInventoryItem uid (some stored) with
            packs := packsSet stored.packs p (packsGet stored.packs p - q) } := by
    simp only [applyActions, applyAction, parseInventoryItem]
    rw [if_neg hp, hqone, if_neg hnotlt, if_neg hne0]
    rfl
  have hbuild : buildModify s uid [.removePack p (some q)] =
      .ok (.writeInv uid (.versionEq stored.version)
        { userId := uid,
          cards := stored.cards,
          packs := packsSet stored.packs p (packsGet stored.packs p - q),
          version := stored.version + 1 }) := by
    simp only [buildModify, hlook, hact]
    rw [if_neg (by simp [huid])]
    simp [parseInventoryItem, hver, conditionalPutCond]
  have hrun : runModify s uid [.removePack p (some q)] =
      (.ok200, { s with
          inventories :=
            assocSet s.inventories uid
              { userId := uid,
                cards := stored.cards,
                packs := packsSet stored.packs p (packsGet stored.packs p - q),
                version := stored.version + 1 } }) := by
    simp only [runModify, hbuild, applyTx, List.all_cons, List.all_nil, txCondHolds,
      hlook, condHoldsInv, Bool.and_true, decide_eq_true_eq]
    simp [List.foldl, applyTxOp]
  refine ⟨_,
    { userId := uid, cards := stored.cards,
      packs := packsSet stored.packs p (packsGet stored.packs p - q),
      version := stored.version + 1 },
    hrun, ?_, ?_, ?_, rfl⟩
  · exact assocGet_assocSet_self _ _ _
  · exact packsGet_packsSet_self _ _ _
  · have h2 : packsGet (packsSet stored.packs p (packsGet stored.packs p - q)) p =
        packsGet stored.packs p - q := packsGet_packsSet_self _ _ _
    show packsGet stored.packs p <
      packsGet (packsSet stored.packs p (packsGet stored.packs p - q)) p
    omega

/-- C10 witness: a concrete inventory with 2 Starter packs; removing
quantity -3 succeeds and stores count 5. -/
theorem modify_pack_quantity_unvalidated_witness :
    ∃ s2 st2,
      runModify
        { emptyMarket with inventories :=
            [("u1", { userId := "u1", cards := [], packs := [("Starter", 2)],
                      version := 4 })] }
        "u1" [.removePack "Starter" (some (-3))] = (.ok200, s2) ∧
      invLookup s2 "u1" = some st2 ∧
      packsGet st2.packs "Starter" = (2 : Int) - (-3) ∧
      (2 : Int) < packsGet st2.packs "Starter" ∧
      st2.version = 4 + 1 := by
  have h := (modify_pack_quantity_unvalidated
    { emptyMarket with inventories :=
        [("u1", { userId := "u1", cards := [], packs := [("Starter", 2)], version := 4 })] }
    "u1" "Starter" (-3)
    { userId := "u1", cards := [], packs := [("Starter", 2)], version := 4 }
    (by decide) (by decide) (by decide) (by decide) (by decide) (by decide)).1
  simpa [packsGet, assocGet] using h

/-- C7 (amended): an expected-cost mismatch on a card purchase, or on a pack
purchase by anyone other than the seller, is rejected with Conflict before
any store write — the returned state is the input state, so listings,
inventories and RAP records are all untouched; a pack self-purchase is
rejected with BadRequest first (also without mutation), whatever the
expected cost. -/
theorem buy_price_mismatch_conflict_no_mutation (s : MarketState) :
    (∀ (r : BuyCardRequest) (l : CardListing), r.buyerId ≠ "" → r.cardId ≠ "" →
       assocGet s.cardListings r.cardId = some l → l.cost ≠ r.expectedCost →
       runBuyCard s r = (.conflict, s)) ∧
    (∀ (r : BuyPackRequest) (l : PackListing), r.buyerId ≠ "" → r.listingId ≠ "" →
       assocGet s.packListings r.listingId = some l → l.sellerId ≠ r.buyerId →
       l.cost ≠ r.expectedCost → runBuyPack s r = (.conflict, s)) ∧
    (∀ (r : BuyPackRequest) (l : PackListing), r.buyerId ≠ "" → r.listingId ≠ "" →
       assocGet s.packListings r.listingId = some l → l.sellerId = r.buyerId →
       runBuyPack s r = (.badRequest, s)) := by
  refine ⟨fun r l h1 h2 hl hc => ?_, fun r l h1 h2 hl hs hc => ?_,
    fun r l h1 h2 hl hs => ?_⟩
  · simp [runBuyCard, planBuyCard, h1, h2, hl, hc]
  · simp [runBuyPack, planBuyPack, h1, h2, hl, hs, hc]
  · simp [runBuyPack, planBuyPack, h1, h2, hl, hs]

/-- C7 witness: a concrete card purchase against a listing costing 5 with
expectedCost 7 answers Conflict and leaves the one-listing state unchanged. -/
theorem buy_price_mismatch_conflict_no_mutation_witness :
    runBuyCard
      { emptyMarket with
          cardListings :=
            [("x1", { cardId := "x1", cardName := "Dragon", cardLevel := 1,
                      cardVariant := "Normal", sellerId := "bob",
                      sellerUsername := "Bob", cost := 5 })] }
      { buyerId := "amy", cardId := "x1", expectedCost := 7 } =
    (.conflict,
      { emptyMarket with
          cardListings :=
            [("x1", { cardId := "x1", cardName := "Dragon", cardLevel := 1,
                      cardVariant := "Normal", sellerId := "bob",
                      sellerUsername := "Bob", cost := 5 })] }) := by
  exact (buy_price_mismatch_conflict_no_mutation _).1
    { buyerId := "amy", cardId := "x1", expectedCost := 7 }
    { cardId := "x1", cardName := "Dragon", cardLevel := 1,
      cardVariant := "Normal", sellerId := "bob",
      sellerUsername := "Bob", cost := 5 }
    (by decide) (by decide) (by decide) (by decide)

/-- C7 counterexample: a pack self-purchase whose expectedCost (7) differs
from the listing cost (5) returns BadRequest, not the Conflict the claim
requires — the self-purchase check of `handlePackPurchase` runs before the
price check. -/
theorem buy_price_mismatch_counterexample :
    (runBuyPack
      { emptyMarket with
          packListings :=
            [("L1", { listingId := "L1", packName := "Starter",
                      sellerId := "bob", sellerUsername := "Bob", cost := 5 })] }
      { buyerId := "bob", listingId := "L1", expectedCost := 7 }).1 = .badRequest ∧
    Resp.badRequest ≠ Resp.conflict ∧ (5 : Int) ≠ 7 := by
  refine ⟨?_, by decide, by decide⟩
  rfl

/-- C1 (code bug): a reachable three-step run from the empty store — modify
gives alice card x1, the list endpoint moves it into a listing, the unlist
endpoint deletes the listing without re-appending the card — ends in a
post-commit state where x1 occupies zero places (no inventory and no
listing), violating the exactly-one-place invariant. -/
theorem card_conservation_violated_by_unlist :
    demoStep1.1 = .ok200 ∧ demoStep2.1 = .ok200 ∧ demoStep3.1 = .ok200 ∧
    cardPlaces demoStep1.2 "x1" = 1 ∧
    cardPlaces demoStep2.2 "x1" = 1 ∧
    cardPlaces demoStep3.2 "x1" = 0 := by decide

/-- C3 counterexample: a successful seller unlist of card x1 deletes the
listing row and the seller-index row but leaves the item-index row in place
and does not re-append the card to the seller's inventory — refuting the
claim that both index rows are deleted and the item returned. -/
theorem unlist_counterexample :
    (runUnlistCard unlistDemoState "alice" "x1").1 = .ok200 ∧
    (runUnlistCard unlistDemoState "alice" "x1").2.itemRows =
      [(.card "Dragon", "x1")] ∧
    assocGet (runUnlistCard unlistDemoState "alice" "x1").2.cardListings "x1" = none ∧
    (runUnlistCard unlistDemoState "alice" "x1").2.sellerRows = [] ∧
    ((runUnlistCard unlistDemoState "alice" "x1").2.inventories.map
      fun e => cardCount e.2.cards "x1") = [0] := by decide

/-- C3 (amended): a successful seller unlist atomically deletes the listing
row and the seller-index row only — the item-index row is never deleted —
and returns the item to the inventory only for pack listings (count
incremented on the existing version-conditioned row, or a fresh row at
version 1 when none exists); an unlisted card is not re-appended. -/
theorem unlist_deletes_listing_and_seller_row (s : MarketState) :
    (∀ (userId cardId : String) (l : CardListing), userId ≠ "" → cardId ≠ "" →
       assocGet s.cardListings cardId = some l → l.sellerId = userId →
       runUnlistCard s userId cardId =
         (.ok200, { s with
             cardListings := assocDel s.cardListings cardId,
             sellerRows := s.sellerRows.filter (· ≠ (userId, SellerSk.card cardId)) })) ∧
    (∀ (userId listingId : String) (l : PackListing) (stored : StoredInventory),
       userId ≠ "" → listingId ≠ "" →
       assocGet s.packListings listingId = some l → l.sellerId = userId →
       invLookup s userId = some stored →
       runUnlistPack s userId listingId =
         (.ok200, { s with
             packListings := assocDel s.packListings listingId,
             sellerRows := s.sellerRows.filter (· ≠ (userId, SellerSk.pack listingId)),
             inventories :=
               assocSet s.inventories userId
                 { userId := stored.userId, cards := stored.cards,
                   packs := packsSet stored.packs l.packName
                     (packsGet stored.packs l.packName + 1),
                   version := stored.version + 1 } })) ∧
    (∀ (userId listingId : String) (l : PackListing),
       userId ≠ "" → listingId ≠ "" →
       assocGet s.packListings listingId = some l → l.sellerId = userId →
       invLookup s userId = none →
       runUnlistPack s userId listingId =
         (.ok200, { s with
             packListings := assocDel s.packListings listingId,
             sellerRows := s.sellerRows.filter (· ≠ (userId, SellerSk.pack listingId)),
             inventories :=
               assocSet s.inventories userId
                 { userId := userId, cards := [], packs := [(l.packName, 1)],
                   version := 1 } })) := by
  refine ⟨fun userId cardId l h1 h2 hl hs => ?_, fun userId listingId l stored h1 h2 hl hs hinv => ?_,
    fun userId listingId l h1 h2 hl hs hinv => ?_⟩
  · simp [runUnlistCard, buildUnlistCard, h1, h2, hl, hs, applyTx, txCondHolds,
      condHoldsRow, applyTxOp, assocDel]
  · simp [runUnlistPack, buildUnlistPack, h1, h2, hl, hs, hinv, applyTx, txCondHolds,
      condHoldsRow, condHoldsInv, applyTxOp, assocDel]
  · simp [runUnlistPack, buildUnlistPack, h1, h2, hl, hs, hinv, applyTx, txCondHolds,
      condHoldsRow, condHoldsInv, applyTxOp, assocDel]

/-- C3 amended-theorem witness: the concrete pack unlist of the scenario
state extended with a pack listing. -/
theorem unlist_deletes_listing_and_seller_row_witness :
    runUnlistPack
      { emptyMarket with
          packListings :=
            [("L1", { listingId := "L1", packName := "Starter",
                      sellerId := "bob", sellerUsername := "Bob", cost := 5 })],
          sellerRows := [("bob", .pack "L1")] }
      "bob" "L1" =
    (.ok200,
      { emptyMarket with
          packListings := [],
          sellerRows := [],
          inventories :=
            [("bob", { userId := "bob", cards := [], packs := [("Starter", 1)],
                       version := 1 })] }) := by
  have h := (unlist_deletes_listing_and_seller_row
    { emptyMarket with
        packListings :=
          [("L1", { listingId := "L1", packName := "Starter",
                    sellerId := "bob", sellerUsername := "Bob", cost := 5 })],
        sellerRows := [("bob", .pack "L1")] }).2.2
    "bob" "L1"
    { listingId := "L1", packName := "Starter",
      sellerId := "bob", sellerUsername := "Bob", cost := 5 }
    (by decide) (by decide) (by decide) (by decide) (by decide)
  simpa [emptyMarket, assocDel, assocSet, List.filter] using h

theorem mem_getDaysBetween (s e d : Nat) :
    d ∈ getDaysBetween s e ↔ s < d ∧ d ≤ e := by
  simp only [getDaysBetween, List.mem_map, List.mem_range]
  constructor
  · rintro ⟨i, hi, rfl⟩
    omega
  · rintro ⟨h1, h2⟩
    exact ⟨d - s - 1, by omega, by omega⟩

theorem getDaysBetween_nodup (s e : Nat) : (getDaysBetween s e).Nodup :=
  (List.nodup_range _).map fun a b h => by omega

theorem getDaysBetween_length (s e : Nat) : (getDaysBetween s e).length = e - s := by
  simp [getDaysBetween]

/-- C9: when an item was not snapshotted today, the backfill writes exactly
one row per calendar date strictly after the snapshot cursor (falling back
to the day of the last price update) through today, skipping dates already
present, every row carrying the pre-backfill RAP, and moves the cursor to
today; a cursor three days old over an up-to-date history yields exactly 3
rows, and a second run the same day yields none. -/
theorem history_backfill_exact
    (rec : RapSnapState) (history : HistoryRows) (today : Nat)
    (hne : rec.lastSnapshotDate ≠ some today) :
    (∀ rows rec2, backfillItem rec history today = (rows, rec2) →
       ((rows.map Prod.fst).Nodup ∧
        (∀ d, d ∈ rows.map Prod.fst ↔
           (rec.lastSnapshotDate.getD rec.lastUpdatedDay < d ∧ d ≤ today ∧
            ∀ h ∈ history, h.1 ≠ d)) ∧
        (∀ row ∈ rows, row.2 = rec.rap) ∧
        rec2.lastSnapshotDate = some today ∧ rec2.rap = rec.rap)) ∧
    (∀ snap, rec.lastSnapshotDate = some snap → snap + 3 = today →
       (∀ h ∈ history, h.1 ≤ snap) →
       (backfillItem rec history today).1.length = 3) ∧
    (∀ rows rec2, backfillItem rec history today = (rows, rec2) →
       backfillItem rec2 (history ++ rows) today = ([], rec2)) := by
  have hbase : backfillItem rec history today =
      (((getDaysBetween (rec.lastSnapshotDate.getD rec.lastUpdatedDay) today).filter
          (fun d => !(history.any fun h => h.1 = d))).map (fun d => (d, rec.rap)),
       { rec with lastSnapshotDate := some today }) := by
    rw [backfillItem, if_neg hne]
  refine ⟨fun rows rec2 hbf => ?_, fun snap hsnap h3 hhist => ?_, fun rows rec2 hbf => ?_⟩
  · rw [hbase] at hbf
    have hr : rows = ((getDaysBetween (rec.lastSnapshotDate.getD rec.lastUpdatedDay)
        today).filter (fun d => !(history.any fun h => h.1 = d))).map
          (fun d => (d, rec.rap)) := (congrArg Prod.fst hbf).symm
    have hrec : rec2 = { rec with lastSnapshotDate := some today } :=
      (congrArg Prod.snd hbf).symm
    have hmapfst : ∀ (l : List Nat),
        (l.map (fun d => (d, rec.rap))).map Prod.fst = l := by
      intro l
      induction l with
      | nil => rfl
      | cons a t ih => simp [ih]
    have hfst : rows.map Prod.fst =
        (getDaysBetween (rec.lastSnapshotDate.getD rec.lastUpdatedDay) today).filter
          (fun d => !(history.any fun h => h.1 = d)) := by
      rw [hr, hmapfst]
    refine ⟨?_, fun d => ?_, fun row hrow => ?_, by rw [hrec], by rw [hrec]⟩
    · rw [hfst]
      exact (getDaysBetween_nodup _ _).filter _
    · rw [hfst, List.mem_filter, mem_getDaysBetween]
      simp [and_assoc, List.any_eq_true]
    · rw [hr] at hrow
      obtain ⟨d, _, rfl⟩ := List.mem_map.mp hrow
      rfl
  · rw [hbase]
    have hall : ((getDaysBetween snap today).filter
        (fun d => !(history.any fun h => h.1 = d))) =
        getDaysBetween snap today := by
      apply List.filter_eq_self.mpr
      intro d hd
      have hgt : snap < d := ((mem_getDaysBetween _ _ _).mp hd).1
      simp only [Bool.not_eq_true', List.any_eq_false, decide_eq_true_eq]
      intro h hh
      have := hhist h hh
      omega
    simp only [hsnap, Option.getD_some, hall, List.length_map, getDaysBetween_length]
    omega
  · rw [hbase] at hbf
    have hrec : rec2 = { rec with lastSnapshotDate := some today } :=
      (congrArg Prod.snd hbf).symm
    rw [backfillItem, if_pos (by rw [hrec])]

/-- C9 witness: an item last snapshotted on day 10, with history rows for
days 9 and 10, backfilled on day 13, gains exactly 3 rows. -/
theorem history_backfill_exact_witness :
    (backfillItem { rap := 7, lastUpdatedDay := 0, lastSnapshotDate := some 10 }
      [(9, 5), (10, 7)] 13).1.length = 3 :=
  (history_backfill_exact
      { rap := 7, lastUpdatedDay := 0, lastSnapshotDate := some 10 }
      [(9, 5), (10, 7)] 13 (by decide)).2.1 10 rfl (by decide)
    (by decide)

theorem parse_version_eq_readVersion (s : MarketState) (uid : String) :
    (parseInventoryItem uid (invLookup s uid)).version = readVersion s uid := by
  cases h : invLookup s uid <;> simp [parseInventoryItem, readVersion, h]

theorem readVersion_of_lookup (s : MarketState) (uid : String)
    (stored : StoredInventory) (h : invLookup s uid = some stored) :
    readVersion s uid = stored.version := by
  simp [readVersion, h]

theorem readVersion_of_lookup_none (s : MarketState) (uid : String)
    (h : invLookup s uid = none) : readVersion s uid = 0 := by
  simp [readVersion, h]

theorem modify_version_contract (s : MarketState) (uid : String)
    (ops : List ModifyAction) (op' : TxOp) (h : buildModify s uid ops = .ok op') :
    ∀ u c i, op' = .writeInv u c i → invWriteBumps (readVersion s u) c i := by
  rintro u c i rfl
  rw [buildModify] at h
  split at h
  · exact absurd h (by simp)
  · dsimp only at h
    split at h
    · exact absurd h (by simp)
    · rw [Except.ok.injEq] at h
      obtain ⟨h1, h2, h3⟩ := TxOp.writeInv.injEq .. |>.mp h
      subst h1
      subst h2
      subst h3
      refine ⟨by simp [parse_version_eq_readVersion], ?_⟩
      rw [parse_version_eq_readVersion]
      by_cases h0 : readVersion s uid = 0
      · right
        exact ⟨by simp [conditionalPutCond, h0], h0⟩
      · left
        simp [conditionalPutCond, h0]

theorem parse_some_version (uid : String) (stored : StoredInventory) :
    (parseInventoryItem uid (some stored)).version = stored.version := by
  simp [parseInventoryItem]

theorem listCard_version_contract (s : MarketState) (r : ListCardRequest)
    (res : CardListing × List TxOp) (h : buildListCard s r = .ok res) :
    ∀ u c i, TxOp.writeInv u c i ∈ res.2 → invWriteBumps (readVersion s u) c i := by
  intro u c i hmem
  rw [buildListCard] at h
  split at h
  · exact absurd h (by simp)
  split at h
  · exact absurd h (by simp)
  split at h
  · exact absurd h (by simp)
  split at h
  · exact absurd h (by simp)
  next stored hlook =>
    split at h
    · exact absurd h (by simp)
    dsimp only at h
    split at h
    · exact absurd h (by simp)
    next card rest hrf =>
      split at h
      · exact absurd h (by simp)
      rw [Except.ok.injEq] at h
      rw [← h] at hmem
      simp only [List.mem_cons, List.not_mem_nil, or_false] at hmem
      rcases hmem with h1 | h1 | h1 | h1
      · exact absurd h1 (by simp)
      · exact absurd h1 (by simp)
      · exact absurd h1 (by simp)
      · obtain ⟨e1, e2, e3⟩ := TxOp.writeInv.injEq .. |>.mp h1
        subst e1
        subst e2
        subst e3
        rw [readVersion_of_lookup s r.userId stored hlook]
        exact ⟨by simp [parse_some_version], Or.inl (by simp [parse_some_version])⟩

theorem listPack_version_contract (s : MarketState) (r : ListPackRequest)
    (freshId : String) (res : PackListing × List TxOp)
    (h : buildListPack s r freshId = .ok res) :
    ∀ u c i, TxOp.writeInv u c i ∈ res.2 → invWriteBumps (readVersion s u) c i := by
  intro u c i hmem
  rw [buildListPack] at h
  split at h
  · exact absurd h (by simp)
  split at h
  · exact absurd h (by simp)
  split at h
  · exact absurd h (by simp)
  split at h
  · exact absurd h (by simp)
  next stored hlook =>
    split at h
    · exact absurd h (by simp)
    dsimp only at h
    split at h
    · exact absurd h (by simp)
    rw [Except.ok.injEq] at h
    rw [← h] at hmem
    simp only [List.mem_cons, List.not_mem_nil, or_false] at hmem
    rcases hmem with h1 | h1 | h1 | h1
    · exact absurd h1 (by simp)
    · exact absurd h1 (by simp)
    · exact absurd h1 (by simp)
    · obtain ⟨e1, e2, e3⟩ := TxOp.writeInv.injEq .. |>.mp h1
      subst e1
      subst e2
      subst e3
      rw [readVersion_of_lookup s r.userId stored hlook]
      exact ⟨by simp [parse_some_version], Or.inl (by simp [parse_some_version])⟩

theorem unlistCard_version_contract (s : MarketState) (a b : String)
    (ops : List TxOp) (h : buildUnlistCard s a b = .ok ops) :
    ∀ u c i, TxOp.writeInv u c i ∈ ops → invWriteBumps (readVersion s u) c i := by
  intro u c i hmem
  rw [buildUnlistCard] at h
  split at h
  · exact absurd h (by simp)
  split at h
  · exact absurd h (by simp)
  split at h
  · exact absurd h (by simp)
  rw [Except.ok.injEq] at h
  rw [← h] at hmem
  simp only [List.mem_cons, List.not_mem_nil, or_false] at hmem
  rcases hmem with h1 | h1 <;> exact absurd h1 (by simp)

theorem unlistPack_version_contract (s : MarketState) (a b : String)
    (ops : List TxOp) (h : buildUnlistPack s a b = .ok ops) :
    ∀ u c i, TxOp.writeInv u c i ∈ ops → invWriteBumps (readVersion s u) c i := by
  intro u c i hmem
  rw [buildUnlistPack] at h
  split at h
  · exact absurd h (by simp)
  split at h
  · exact absurd h (by simp)
  split at h
  · exact absurd h (by simp)
  dsimp only at h
  split at h
  case h_1 stored hlook =>
    rw [Except.ok.injEq] at h
    rw [← h] at hmem
    simp only [List.cons_append, List.nil_append, List.mem_cons,
      List.not_mem_nil, or_false] at hmem
    rcases hmem with h1 | h1 | h1
    · exact absurd h1 (by simp)
    · exact absurd h1 (by simp)
    · obtain ⟨e1, e2, e3⟩ := TxOp.writeInv.injEq .. |>.mp h1
      subst e1
      subst e2
      subst e3
      rw [readVersion_of_lookup s u stored hlook]
      exact ⟨rfl, Or.inl rfl⟩
  case h_2 hlook =>
    rw [Except.ok.injEq] at h
    rw [← h] at hmem
    simp only [List.cons_append, List.nil_append, List.mem_cons,
      List.not_mem_nil, or_false] at hmem
    rcases hmem with h1 | h1 | h1
    · exact absurd h1 (by simp)
    · exact absurd h1 (by simp)
    · obtain ⟨e1, e2, e3⟩ := TxOp.writeInv.injEq .. |>.mp h1
      subst e1
      subst e2
      subst e3
      rw [readVersion_of_lookup_none s u hlook]
      exact ⟨rfl, Or.inr ⟨rfl, rfl⟩⟩

theorem buyerWrite_contract (s : MarketState) (buyerId : String)
    (cards : List InventoryCard) (packs : Packs) :
    ∀ u c i, buyerWrite buyerId (invLookup s buyerId) cards packs = .writeInv u c i →
      invWriteBumps (readVersion s u) c i := by
  intro u c i h
  cases hb : invLookup s buyerId with
  | none =>
      rw [hb] at h
      simp only [buyerWrite] at h
      obtain ⟨e1, e2, e3⟩ := TxOp.writeInv.injEq .. |>.mp h
      subst e1
      subst e2
      subst e3
      rw [readVersion_of_lookup_none s buyerId hb]
      exact ⟨rfl, Or.inr ⟨rfl, rfl⟩⟩
  | some stored =>
      rw [hb] at h
      simp only [buyerWrite] at h
      obtain ⟨e1, e2, e3⟩ := TxOp.writeInv.injEq .. |>.mp h
      subst e1
      subst e2
      subst e3
      rw [readVersion_of_lookup s buyerId stored hb]
      exact ⟨rfl, Or.inl rfl⟩

theorem rapWrites_no_invWrite (key : ItemKey) (cur : Option ℚ) (nr : ℚ) :
    ∀ u c i, TxOp.writeInv u c i ∉ rapWrites key cur nr := by
  intro u c i hmem
  cases cur <;> simp [rapWrites] at hmem

theorem buyCard_version_contract (s : MarketState) (r : BuyCardRequest)
    (ops : List TxOp) (h : planBuyCard s r = .commit ops) :
    ∀ u c i, TxOp.writeInv u c i ∈ ops → invWriteBumps (readVersion s u) c i := by
  intro u c i hmem
  rw [planBuyCard] at h
  split at h
  · exact absurd h (by simp)
  split at h
  · exact absurd h (by simp)
  next l hl =>
    split at h
    · exact absurd h (by simp)
    split at h
    · exact absurd h (by simp)
    split at h
    · exact absurd h (by simp)
    next sellerInv hslook =>
      split at h
      · exact absurd h (by simp)
      next card rest hrf =>
        dsimp only at h
        rw [BuyPlan.commit.injEq] at h
        rw [← h] at hmem
        rw [List.mem_append] at hmem
        rcases hmem with hmem | hmem
        · simp only [List.mem_cons, List.not_mem_nil, or_false] at hmem
          rcases hmem with h1 | h1 | h1 | h1
          · exact absurd h1 (by simp)
          · exact absurd h1 (by simp)
          · obtain ⟨e1, e2, e3⟩ := TxOp.writeInv.injEq .. |>.mp h1
            subst e1
            subst e2
            subst e3
            rw [readVersion_of_lookup s l.sellerId sellerInv hslook]
            exact ⟨rfl, Or.inl rfl⟩
          · exact buyerWrite_contract s r.buyerId _ _ u c i h1.symm
        · exact absurd hmem (rapWrites_no_invWrite _ _ _ u c i)

theorem buyPack_version_contract (s : MarketState) (r : BuyPackRequest)
    (ops : List TxOp) (h : planBuyPack s r = .ok ops) :
    ∀ u c i, TxOp.writeInv u c i ∈ ops → invWriteBumps (readVersion s u) c i := by
  intro u c i hmem
  rw [planBuyPack] at h
  split at h
  · exact absurd h (by simp)
  split at h
  · exact absurd h (by simp)
  next l hl =>
    split at h
    · exact absurd h (by simp)
    split at h
    · exact absurd h (by simp)
    dsimp only at h
    rw [Except.ok.injEq] at h
    rw [← h] at hmem
    rw [List.mem_append] at hmem
    rcases hmem with hmem | hmem
    · simp only [List.mem_cons, List.not_mem_nil, or_false] at hmem
      rcases hmem with h1 | h1 | h1
      · exact absurd h1 (by simp)
      · exact absurd h1 (by simp)
      · exact buyerWrite_contract s r.buyerId _ _ u c i h1.symm
    · exact absurd hmem (rapWrites_no_invWrite _ _ _ u c i)

theorem mapVersionsOk_init (s : MarketState) (ids : List String) :
    mapVersionsOk s (ids.map fun uid => (uid, parseInventoryItem uid (invLookup s uid))) := by
  intro e he
  obtain ⟨uid, _, rfl⟩ := List.mem_map.mp he
  refine ⟨parse_version_eq_readVersion s uid, ?_⟩
  cases h : invLookup s uid <;> simp [parseInventoryItem, h]

theorem mapVersionsOk_update (s : MarketState) (m : InvMap) (uid : String)
    (f : ParsedInventory → ParsedInventory)
    (hf : ∀ x, (f x).version = x.version ∧ (f x).invExists = x.invExists)
    (hm : mapVersionsOk s m) : mapVersionsOk s (invMapUpdate m uid f) := by
  intro e he
  obtain ⟨e0, he0, heq⟩ := List.mem_map.mp he
  by_cases h : e0.1 = uid
  · rw [if_pos h] at heq
    rw [← heq]
    exact ⟨(hf e0.2).1.trans (hm e0 he0).1, (hf e0.2).2.trans (hm e0 he0).2⟩
  · rw [if_neg h] at heq
    rw [← heq]
    exact hm e0 he0

theorem moveCards_versionsOk (s : MarketState) (fromId toId : String)
    (cids : List String) :
    ∀ m m2, moveCards m fromId toId cids = .ok m2 →
      mapVersionsOk s m → mapVersionsOk s m2 := by
  induction cids with
  | nil =>
      intro m m2 h hm
      rw [moveCards, Except.ok.injEq] at h
      rw [← h]
      exact hm
  | cons cid rest ih =>
      intro m m2 h hm
      rw [moveCards] at h
      split at h
      · exact absurd h (by simp)
      split at h
      · exact absurd h (by simp)
      refine ih _ _ h (mapVersionsOk_update s _ toId _ (fun x => ⟨rfl, rfl⟩)
        (mapVersionsOk_update s _ fromId _ (fun x => ⟨rfl, rfl⟩) hm))

theorem movePacks_versionsOk (s : MarketState) (fromId toId : String)
    (ps : List (String × Int)) :
    ∀ m m2, movePacks m fromId toId ps = .ok m2 →
      mapVersionsOk s m → mapVersionsOk s m2 := by
  induction ps with
  | nil =>
      intro m m2 h hm
      rw [movePacks, Except.ok.injEq] at h
      rw [← h]
      exact hm
  | cons pq rest ih =>
      intro m m2 h hm
      rw [movePacks] at h
      split at h
      · exact absurd h (by simp)
      split at h
      · exact absurd h (by simp)
      refine ih _ _ h (mapVersionsOk_update s _ toId _ (fun x => ⟨rfl, rfl⟩)
        (mapVersionsOk_update s _ fromId _ (fun x => ⟨rfl, rfl⟩) hm))

theorem applyLeg_versionsOk (s : MarketState) (t : Transfer) (m m2 : InvMap)
    (h : applyLeg m t = .ok m2) (hm : mapVersionsOk s m) : mapVersionsOk s m2 := by
  rw [applyLeg] at h
  split at h
  case h_2 => exact absurd h (by simp)
  split at h
  · exact absurd h (by simp)
  split at h
  · exact absurd h (by simp)
  next mc hmc =>
    exact movePacks_versionsOk s _ _ _ _ _ h
      (moveCards_versionsOk s _ _ _ _ _ hmc hm)

theorem runTransferLegs_versionsOk (s : MarketState) (ts : List Transfer) :
    ∀ m m2, runTransferLegs m ts = .ok m2 →
      mapVersionsOk s m → mapVersionsOk s m2 := by
  induction ts with
  | nil =>
      intro m m2 h hm
      rw [runTransferLegs, Except.ok.injEq] at h
      rw [← h]
      exact hm
  | cons t rest ih =>
      intro m m2 h hm
      rw [runTransferLegs] at h
      split at h
      · exact absurd h (by simp)
      next m1 hleg =>
        exact ih _ _ h (applyLeg_versionsOk s t m m1 hleg hm)

theorem transfer_version_contract (s : MarketState) (ts : List Transfer)
    (ops : List TxOp) (h : buildTransfer s ts = .ok ops) :
    ∀ u c i, TxOp.writeInv u c i ∈ ops → invWriteBumps (readVersion s u) c i := by
  intro u c i hmem
  rw [buildTransfer] at h
  split at h
  · exact absurd h (by simp)
  dsimp only at h
  split at h
  · exact absurd h (by simp)
  next m hrun =>
    rw [Except.ok.injEq] at h
    rw [← h] at hmem
    obtain ⟨e, hem, heq⟩ := List.mem_map.mp hmem
    obtain ⟨hv, hex⟩ := runTransferLegs_versionsOk s ts _ m hrun
      (mapVersionsOk_init s _) e hem
    rw [transferWriteOf] at heq
    by_cases hx : e.2.invExists
    · rw [if_pos hx] at heq
      obtain ⟨e1, e2, e3⟩ := TxOp.writeInv.injEq .. |>.mp heq
      rw [← e1, ← e2, ← e3]
      exact ⟨by rw [hv], Or.inl (by rw [hv])⟩
    · rw [if_neg hx] at heq
      obtain ⟨e1, e2, e3⟩ := TxOp.writeInv.injEq .. |>.mp heq
      have h0 : readVersion s e.1 = 0 := by
        rw [eq_comm, Bool.eq_iff_iff] at hex
        simp only [hx] at hex
        cases hl : invLookup s e.1 with
        | none => exact readVersion_of_lookup_none s e.1 hl
        | some st =>
            rw [hl] at hex
            simp at hex
      rw [← e1, ← e2, ← e3]
      exact ⟨by rw [hv, h0], Or.inr ⟨rfl, h0⟩⟩

theorem writeInv_commit_bumps (s : MarketState) (uid : String) (cond : TxCond)
    (inv : StoredInventory) (hb : invWriteBumps (readVersion s uid) cond inv)
    (hc : txCondHolds s (.writeInv uid cond inv) = true) :
    readVersion (applyTxOp s (.writeInv uid cond inv)) uid =
      readVersion s uid + 1 := by
  simp [applyTxOp, readVersion, invLookup, assocGet_assocSet_self, hb.1]

/-- C2: every successful inventory commit of the five mutating operations —
modify, list, unlist, buy and transfer — stores version `readVersion + 1`
and is conditioned on the read version (`attribute_not_exists` exactly when
the row was read as absent, i.e. version 0); applying such a conditioned
write makes the stored version exactly one more than before. -/
theorem inventory_version_contract :
    (∀ (s : MarketState) (uid : String) (ops : List ModifyAction) (op' : TxOp),
       buildModify s uid ops = .ok op' →
       ∀ u c i, op' = .writeInv u c i → invWriteBumps (readVersion s u) c i) ∧
    (∀ (s : MarketState) (r : ListCardRequest) (res : CardListing × List TxOp),
       buildListCard s r = .ok res →
       ∀ u c i, TxOp.writeInv u c i ∈ res.2 → invWriteBumps (readVersion s u) c i) ∧
    (∀ (s : MarketState) (r : ListPackRequest) (fid : String)
       (res : PackListing × List TxOp),
       buildListPack s r fid = .ok res →
       ∀ u c i, TxOp.writeInv u c i ∈ res.2 → invWriteBumps (readVersion s u) c i) ∧
    (∀ (s : MarketState) (a b : String) (ops : List TxOp),
       buildUnlistCard s a b = .ok ops →
       ∀ u c i, TxOp.writeInv u c i ∈ ops → invWriteBumps (readVersion s u) c i) ∧
    (∀ (s : MarketState) (a b : String) (ops : List TxOp),
       buildUnlistPack s a b = .ok ops →
       ∀ u c i, TxOp.writeInv u c i ∈ ops → invWriteBumps (readVersion s u) c i) ∧
    (∀ (s : MarketState) (r : BuyCardRequest) (ops : List TxOp),
       planBuyCard s r = .commit ops →
       ∀ u c i, TxOp.writeInv u c i ∈ ops → invWriteBumps (readVersion s u) c i) ∧
    (∀ (s : MarketState) (r : BuyPackRequest) (ops : List TxOp),
       planBuyPack s r = .ok ops →
       ∀ u c i, TxOp.writeInv u c i ∈ ops → invWriteBumps (readVersion s u) c i) ∧
    (∀ (s : MarketState) (ts : List Transfer) (ops : List TxOp),
       buildTransfer s ts = .ok ops →
       ∀ u c i, TxOp.writeInv u c i ∈ ops → invWriteBumps (readVersion s u) c i) ∧
    (∀ (s : MarketState) (uid : String) (cond : TxCond) (inv : StoredInventory),
       invWriteBumps (readVersion s uid) cond inv →
       txCondHolds s (.writeInv uid cond inv) = true →
       readVersion (applyTxOp s (.writeInv uid cond inv)) uid =
         readVersion s uid + 1) :=
  ⟨modify_version_contract, listCard_version_contract, listPack_version_contract,
   unlistCard_version_contract, unlistPack_version_contract,
   buyCard_version_contract, buyPack_version_contract,
   transfer_version_contract, writeInv_commit_bumps⟩

/-- C2 witness: the modify commit on a concrete store at version 4 writes
version 5 conditioned on version 4. -/
theorem inventory_version_contract_witness :
    invWriteBumps
      (readVersion
        { emptyMarket with inventories :=
            [("u1", { userId := "u1", cards := [], packs := [("Starter", 2)],
                      version := 4 })] } "u1")
      (.versionEq 4)
      { userId := "u1", cards := [], packs := [("Starter", 3)], version := 5 } :=
  inventory_version_contract.1
    { emptyMarket with inventories :=
        [("u1", { userId := "u1", cards := [], packs := [("Starter", 2)],
                  version := 4 })] }
    "u1" [.addPack "Starter" none] _ rfl "u1" (.versionEq 4)
    { userId := "u1", cards := [], packs := [("Starter", 3)], version := 5 } rfl

theorem cardCount_append (xs ys : List InventoryCard) (cid : String) :
    cardCount (xs ++ ys) cid = cardCount xs cid + cardCount ys cid := by
  simp [cardCount, List.filter_append]

theorem removeFirstCard_of_count_pos (cards : List InventoryCard) (cid : String)
    (h : 0 < cardCount cards cid) :
    ∃ c rest, removeFirstCard cards cid = some (c, rest) ∧ c.cardId = cid ∧
      cardCount rest cid = cardCount cards cid - 1 := by
  induction cards with
  | nil => simp [cardCount] at h
  | cons c0 cs ih =>
      by_cases hc : c0.cardId = cid
      · refine ⟨c0, cs, by simp [removeFirstCard, hc], hc, ?_⟩
        simp [cardCount, List.filter_cons, hc]
      · have h2 : 0 < cardCount cs cid := by
          simpa [cardCount, List.filter_cons, hc] using h
        obtain ⟨c, rest, hr, hcid, hcount⟩ := ih h2
        refine ⟨c, c0 :: rest, by simp [removeFirstCard, hc, hr], hcid, ?_⟩
        simp [cardCount, List.filter_cons, hc] at hcount ⊢
        omega

theorem assocGet_invMapUpdate_self (m : InvMap) (uid : String)
    (f : ParsedInventory → ParsedInventory) :
    assocGet (invMapUpdate m uid f) uid = (assocGet m uid).map f := by
  induction m with
  | nil => rfl
  | cons e es ih =>
      by_cases h : e.1 = uid
      · simp only [invMapUpdate, List.map_cons, if_pos h]
        simp [assocGet, h]
      · simp only [invMapUpdate, List.map_cons, if_neg h] at ih ⊢
        simp [assocGet, h, ih]

theorem assocGet_invMapUpdate_ne (m : InvMap) (uid uid2 : String)
    (f : ParsedInventory → ParsedInventory) (h : uid2 ≠ uid) :
    assocGet (invMapUpdate m uid f) uid2 = assocGet m uid2 := by
  induction m with
  | nil => rfl
  | cons e es ih =>
      by_cases he : e.1 = uid
      · have he2 : ¬e.1 = uid2 := by rw [he]; exact fun hh => h hh.symm
        have h2 : ¬uid = uid2 := fun hh => h hh.symm
        simp only [invMapUpdate] at ih
        simp [invMapUpdate, assocGet, he, he2, h2, ih]
      · simp only [invMapUpdate, List.map_cons, if_neg he] at ih ⊢
        simp [assocGet, ih]

theorem moveCards_single (m : InvMap) (fromId toId : String)
    (fromInv : ParsedInventory) (cid : String) (card : InventoryCard)
    (rest : List InventoryCard) (hf : assocGet m fromId = some fromInv)
    (hrf : removeFirstCard fromInv.cards cid = some (card, rest)) :
    moveCards m fromId toId [cid] = .ok
      (invMapUpdate (invMapUpdate m fromId fun x => { x with cards := rest })
        toId fun x => { x with cards := x.cards ++ [card] }) := by
  simp only [moveCards, hf, hrf]

theorem applyLeg_cards_single (m : InvMap) (f t cid : String)
    (fromInv toInv : ParsedInventory) (card : InventoryCard)
    (rest : List InventoryCard)
    (hf : assocGet m f = some fromInv) (ht : assocGet m t = some toInv)
    (hex : fromInv.invExists = true)
    (hrf : removeFirstCard fromInv.cards cid = some (card, rest)) :
    applyLeg m ⟨f, t, [cid], []⟩ = .ok
      (invMapUpdate (invMapUpdate m f fun x => { x with cards := rest })
        t fun x => { x with cards := x.cards ++ [card] }) := by
  rw [applyLeg]
  simp only [hf, ht, hex]
  rw [moveCards_single m f t fromInv cid card rest hf hrf]
  simp [movePacks]

/-- C5: a two-leg transfer `[A→B: X], [B→C: X]` in one request, with A owning
exactly one copy of X and B none, succeeds in one pass: the legs are applied
sequentially to the in-memory snapshots (leg 2 sees the card pushed by leg
1), the commit writes each touched inventory exactly once — three writes,
one per user, each conditioned on the version read at the start and storing
version + 1 — and the final store has X in C's inventory and in neither A's
nor B's. -/
theorem transfer_sequential_legs
    (s : MarketState) (A B C X : String) (sa sb : StoredInventory)
    (hA : A ≠ "") (hB : B ≠ "") (hC : C ≠ "")
    (hAB : A ≠ B) (hBC : B ≠ C) (hAC : A ≠ C)
    (ha : invLookup s A = some sa) (hb : invLookup s B = some sb)
    (haX : cardCount sa.cards X = 1) (hbX : cardCount sb.cards X = 0) :
    ∃ (a2 b2 c2 : StoredInventory) (condC : TxCond) (s2 : MarketState),
      buildTransfer s [⟨A, B, [X], []⟩, ⟨B, C, [X], []⟩] = .ok
        [ .writeInv A (.versionEq sa.version) a2,
          .writeInv B (.versionEq sb.version) b2,
          .writeInv C condC c2 ] ∧
      cardCount a2.cards X = 0 ∧ a2.version = sa.version + 1 ∧
      cardCount b2.cards X = 0 ∧ b2.version = sb.version + 1 ∧
      0 < cardCount c2.cards X ∧ c2.version = readVersion s C + 1 ∧
      runTransfer s [⟨A, B, [X], []⟩, ⟨B, C, [X], []⟩] = (.ok200, s2) ∧
      invLookup s2 A = some a2 ∧ invLookup s2 B = some b2 ∧
      invLookup s2 C = some c2 := by
  have hBA : ¬B = A := fun hh => hAB hh.symm
  have hCA : ¬C = A := fun hh => hAC hh.symm
  have hCB : ¬C = B := fun hh => hBC hh.symm
  obtain ⟨cardA, restA, hrfA, hcidA, hcntA⟩ :=
    removeFirstCard_of_count_pos sa.cards X (by omega)
  have hcntA0 : cardCount restA X = 0 := by omega
  have hBplus : cardCount (sb.cards ++ [cardA]) X = 1 := by
    rw [cardCount_append, hbX]
    simp [cardCount, hcidA]
  obtain ⟨cardB, restB, hrfB, hcidB, hcntB⟩ :=
    removeFirstCard_of_count_pos (sb.cards ++ [cardA]) X (by omega)
  have hcntB0 : cardCount restB X = 0 := by omega
  have hval : validTransfers [⟨A, B, [X], []⟩, ⟨B, C, [X], []⟩] = true := by
    simp [validTransfers, hA, hB, hC, hAB, hBC]
  have bBA : (B != A) = true := by simpa [bne_iff_ne] using hBA
  have bCA : (C != A) = true := by simpa [bne_iff_ne] using hCA
  have bCB : (C != B) = true := by simpa [bne_iff_ne] using hCB
  have hids : firstDedup [A, B, B, C] = [A, B, C] := by
    simp [firstDedup, List.filter, bBA, bCA, bCB, bne_self_eq_false]
  have hleg1 : applyLeg
      [(A, parseInventoryItem A (some sa)), (B, parseInventoryItem B (some sb)),
       (C, parseInventoryItem C (invLookup s C))] ⟨A, B, [X], []⟩ =
      .ok [(A, { parseInventoryItem A (some sa) with cards := restA }),
           (B, { parseInventoryItem B (some sb) with cards := sb.cards ++ [cardA] }),
           (C, parseInventoryItem C (invLookup s C))] := by
    rw [applyLeg_cards_single _ A B X (parseInventoryItem A (some sa))
      (parseInventoryItem B (some sb)) cardA restA
      (by simp [assocGet]) (by simp [assocGet, hAB]) rfl hrfA]
    congr 1
    simp [invMapUpdate, hBA, hCA, hCB, hAB, parseInventoryItem]
  have hleg2 : applyLeg
      [(A, { parseInventoryItem A (some sa) with cards := restA }),
       (B, { parseInventoryItem B (some sb) with cards := sb.cards ++ [cardA] }),
       (C, parseInventoryItem C (invLookup s C))] ⟨B, C, [X], []⟩ =
      .ok [(A, { parseInventoryItem A (some sa) with cards := restA }),
           (B, { parseInventoryItem B (some sb) with cards := restB }),
           (C, { parseInventoryItem C (invLookup s C) with
                 cards := (parseInventoryItem C (invLookup s C)).cards ++ [cardB] })] := by
    rw [applyLeg_cards_single _ B C X
      ({ parseInventoryItem B (some sb) with cards := sb.cards ++ [cardA] })
      (parseInventoryItem C (invLookup s C)) cardB restB
      (by simp [assocGet, hAB]) (by simp [assocGet, hAC, hBC]) rfl hrfB]
    congr 1
    simp [invMapUpdate, hBA, hCA, hCB, hAB, hBC, hAC]
  have hlegs : runTransferLegs
      [(A, parseInventoryItem A (some sa)), (B, parseInventoryItem B (some sb)),
       (C, parseInventoryItem C (invLookup s C))]
      [⟨A, B, [X], []⟩, ⟨B, C, [X], []⟩] =
      .ok [(A, { parseInventoryItem A (some sa) with cards := restA }),
           (B, { parseInventoryItem B (some sb) with cards := restB }),
           (C, { parseInventoryItem C (invLookup s C) with
                 cards := (parseInventoryItem C (invLookup s C)).cards ++ [cardB] })] := by
    rw [runTransferLegs, hleg1]
    dsimp only
    rw [runTransferLegs, hleg2]
    dsimp only
    rw [runTransferLegs]
  have hbuild : buildTransfer s [⟨A, B, [X], []⟩, ⟨B, C, [X], []⟩] = .ok
      [ transferWriteOf A { parseInventoryItem A (some sa) with cards := restA },
        transferWriteOf B { parseInventoryItem B (some sb) with cards := restB },
        transferWriteOf C { parseInventoryItem C (invLookup s C) with
          cards := (parseInventoryItem C (invLookup s C)).cards ++ [cardB] } ] := by
    rw [buildTransfer]
    rw [if_neg (by simp [hval])]
    dsimp only
    simp only [List.map_cons, List.map_nil, List.flatten_cons, List.flatten_nil,
      List.cons_append, List.nil_append, List.append_nil]
    rw [hids]
    dsimp only [List.map]
    rw [ha, hb, hlegs]
    rfl
  cases hc : invLookup s C with
  | none =>
      have hbuildN : buildTransfer s [⟨A, B, [X], []⟩, ⟨B, C, [X], []⟩] = .ok
          [ .writeInv A (.versionEq sa.version)
              { userId := (parseInventoryItem A (some sa)).userId, cards := restA,
                packs := sa.packs, version := sa.version + 1 },
            .writeInv B (.versionEq sb.version)
              { userId := (parseInventoryItem B (some sb)).userId, cards := restB,
                packs := sb.packs, version := sb.version + 1 },
            .writeInv C .notExists
              { userId := C, cards := [] ++ [cardB], packs := [],
                version := 0 + 1 } ] := by
        rw [hbuild, hc]
        rfl
      have hcall : ([ TxOp.writeInv A (.versionEq sa.version)
              { userId := (parseInventoryItem A (some sa)).userId, cards := restA,
                packs := sa.packs, version := sa.version + 1 },
            TxOp.writeInv B (.versionEq sb.version)
              { userId := (parseInventoryItem B (some sb)).userId, cards := restB,
                packs := sb.packs, version := sb.version + 1 },
            TxOp.writeInv C .notExists
              { userId := C, cards := [] ++ [cardB], packs := [],
                version := 0 + 1 } ].all (txCondHolds s)) = true := by
        simp [txCondHolds, condHoldsInv, ha, hb, hc]
      refine ⟨{ userId := (parseInventoryItem A (some sa)).userId, cards := restA,
                packs := sa.packs, version := sa.version + 1 },
              { userId := (parseInventoryItem B (some sb)).userId, cards := restB,
                packs := sb.packs, version := sb.version + 1 },
              { userId := C, cards := [] ++ [cardB], packs := [], version := 0 + 1 },
              .notExists,
              List.foldl applyTxOp s
                [ .writeInv A (.versionEq sa.version)
                    { userId := (parseInventoryItem A (some sa)).userId, cards := restA,
                      packs := sa.packs, version := sa.version + 1 },
                  .writeInv B (.versionEq sb.version)
                    { userId := (parseInventoryItem B (some sb)).userId, cards := restB,
                      packs := sb.packs, version := sb.version + 1 },
                  .writeInv C .notExists
                    { userId := C, cards := [] ++ [cardB], packs := [],
                      version := 0 + 1 } ],
              hbuildN, hcntA0, rfl, hcntB0, rfl, ?_, ?_, ?_, ?_, ?_, ?_⟩
      · simp [cardCount, hcidB]
      · rw [readVersion_of_lookup_none s C hc]
      · rw [runTransfer, hbuildN]
        dsimp only
        rw [applyTx, if_pos hcall]
      · simp only [List.foldl, applyTxOp, invLookup]
        rw [assocGet_assocSet_ne _ _ _ _ hAC, assocGet_assocSet_ne _ _ _ _ hAB,
          assocGet_assocSet_self]
      · simp only [List.foldl, applyTxOp, invLookup]
        rw [assocGet_assocSet_ne _ _ _ _ hBC, assocGet_assocSet_self]
      · simp only [List.foldl, applyTxOp, invLookup]
        rw [assocGet_assocSet_self]
  | some sc =>
      have hbuildN : buildTransfer s [⟨A, B, [X], []⟩, ⟨B, C, [X], []⟩] = .ok
          [ .writeInv A (.versionEq sa.version)
              { userId := (parseInventoryItem A (some sa)).userId, cards := restA,
                packs := sa.packs, version := sa.version + 1 },
            .writeInv B (.versionEq sb.version)
              { userId := (parseInventoryItem B (some sb)).userId, cards := restB,
                packs := sb.packs, version := sb.version + 1 },
            .writeInv C (.versionEq sc.version)
              { userId := (parseInventoryItem C (some sc)).userId,
                cards := sc.cards ++ [cardB], packs := sc.packs,
                version := sc.version + 1 } ] := by
        rw [hbuild, hc]
        rfl
      have hcall : ([ TxOp.writeInv A (.versionEq sa.version)
              { userId := (parseInventoryItem A (some sa)).userId, cards := restA,
                packs := sa.packs, version := sa.version + 1 },
            TxOp.writeInv B (.versionEq sb.version)
              { userId := (parseInventoryItem B (some sb)).userId, cards := restB,
                packs := sb.packs, version := sb.version + 1 },
            TxOp.writeInv C (.versionEq sc.version)
              { userId := (parseInventoryItem C (some sc)).userId,
                cards := sc.cards ++ [cardB], packs := sc.packs,
                version := sc.version + 1 } ].all (txCondHolds s)) = true := by
        simp [txCondHolds, condHoldsInv, ha, hb, hc]
      refine ⟨{ userId := (parseInventoryItem A (some sa)).userId, cards := restA,
                packs := sa.packs, version := sa.version + 1 },
              { userId := (parseInventoryItem B (some sb)).userId, cards := restB,
                packs := sb.packs, version := sb.version + 1 },
              { userId := (parseInventoryItem C (some sc)).userId,
                cards := sc.cards ++ [cardB], packs := sc.packs,
                version := sc.version + 1 },
              .versionEq sc.version,
              List.foldl applyTxOp s
                [ .writeInv A (.versionEq sa.version)
                    { userId := (parseInventoryItem A (some sa)).userId, cards := restA,
                      packs := sa.packs, version := sa.version + 1 },
                  .writeInv B (.versionEq sb.version)
                    { userId := (parseInventoryItem B (some sb)).userId, cards := restB,
                      packs := sb.packs, version := sb.version + 1 },
                  .writeInv C (.versionEq sc.version)
                    { userId := (parseInventoryItem C (some sc)).userId,
                      cards := sc.cards ++ [cardB], packs := sc.packs,
                      version := sc.version + 1 } ],
              hbuildN, hcntA0, rfl, hcntB0, rfl,
              ?_, ?_, ?_, ?_, ?_, ?_⟩
      · rw [cardCount_append]
        simp [cardCount, hcidB]
      · rw [readVersion_of_lookup s C sc hc]
      · rw [runTransfer, hbuildN]
        dsimp only
        rw [applyTx, if_pos hcall]
      · simp only [List.foldl, applyTxOp, invLookup]
        rw [assocGet_assocSet_ne _ _ _ _ hAC, assocGet_assocSet_ne _ _ _ _ hAB,
          assocGet_assocSet_self]
      · simp only [List.foldl, applyTxOp, invLookup]
        rw [assocGet_assocSet_ne _ _ _ _ hBC, assocGet_assocSet_self]
      · simp only [List.foldl, applyTxOp, invLookup]
        rw [assocGet_assocSet_self]


/-- C5 witness: the chained two-leg transfer on a concrete store where user
a (version 3) owns card x and user b (version 7) owns nothing. -/
theorem transfer_sequential_legs_witness :
    ∃ (a2 b2 c2 : StoredInventory) (condC : TxCond) (s2 : MarketState),
      buildTransfer
        { emptyMarket with inventories :=
            [("a", { userId := "a",
                     cards := [{ cardId := "x", cardName := "Dragon",
                                 level := some 1, variant := some "Normal" }],
                     packs := [], version := 3 }),
             ("b", { userId := "b", cards := [], packs := [], version := 7 })] }
        [⟨"a", "b", ["x"], []⟩, ⟨"b", "c", ["x"], []⟩] = .ok
        [ .writeInv "a" (.versionEq 3) a2,
          .writeInv "b" (.versionEq 7) b2,
          .writeInv "c" condC c2 ] ∧
      cardCount a2.cards "x" = 0 ∧ a2.version = 3 + 1 ∧
      cardCount b2.cards "x" = 0 ∧ b2.version = 7 + 1 ∧
      0 < cardCount c2.cards "x" ∧
      c2.version =
        readVersion
          { emptyMarket with inventories :=
              [("a", { userId := "a",
                       cards := [{ cardId := "x", cardName := "Dragon",
                                   level := some 1, variant := some "Normal" }],
                       packs := [], version := 3 }),
               ("b", { userId := "b", cards := [], packs := [], version := 7 })] }
          "c" + 1 ∧
      runTransfer
        { emptyMarket with inventories :=
            [("a", { userId := "a",
                     cards := [{ cardId := "x", cardName := "Dragon",
                                 level := some 1, variant := some "Normal" }],
                     packs := [], version := 3 }),
             ("b", { userId := "b", cards := [], packs := [], version := 7 })] }
        [⟨"a", "b", ["x"], []⟩, ⟨"b", "c", ["x"], []⟩] = (.ok200, s2) ∧
      invLookup s2 "a" = some a2 ∧ invLookup s2 "b" = some b2 ∧
      invLookup s2 "c" = some c2 :=
  transfer_sequential_legs
    { emptyMarket with inventories :=
        [("a", { userId := "a",
                 cards := [{ cardId := "x", cardName := "Dragon",
                             level := some 1, variant := some "Normal" }],
                 packs := [], version := 3 }),
         ("b", { userId := "b", cards := [], packs := [], version := 7 })] }
    "a" "b" "c" "x"
    { userId := "a",
      cards := [{ cardId := "x", cardName := "Dragon",
                  level := some 1, variant := some "Normal" }],
      packs := [], version := 3 }
    { userId := "b", cards := [], packs := [], version := 7 }
    (by decide) (by decide) (by decide) (by decide) (by decide) (by decide)
    rfl rfl (by decide) (by decide)

/-- C4 (code bug): `db.put` never attaches a `ConditionExpression`, so the
idempotency-marker insert is unconditional — it succeeds whatever row is
present, including over an existing `processing` marker — and under the race
where both first requests `db.get` before either `db.put`, both requests
decide to execute the business logic. -/
theorem idempotency_marker_insert_unconditioned :
    raceFirstRequests none = (.execute, .execute, some processingMarker) ∧
    (∀ (cur : Option IdemRecord) (item : IdemRecord), dbPut cur item = some item) ∧
    dbPut (some processingMarker) processingMarker = some processingMarker :=
  ⟨rfl, fun _ _ => rfl, rfl⟩

end CardsBackend
